import Mathlib

/-!
# Verification of the multi-backend video dispatch subsystem

Shallow embedding of `src/video_backends/multi_backend_generator.py`,
`src/video_backends/base_backend.py`, the four concrete backend adapters
(`runway_backend.py`, `svd_backend.py`, `pika_backend.py`,
`luma_backend.py`) and `src/video_generator.py`.

Modelling conventions:
* Python dicts keyed by backend name become association lists
  (`List (String × _)`); `dict.get(k, d)` becomes `alookupD`, `d[k] = v`
  becomes `aset` (update-or-append, matching dict assignment), and the
  guarded mutations `d[k] += 1` / `d[k] = max(0, d[k]-1)` become `amod`.
* Task counts are naturals: Python counts start at 0, are incremented by 1
  and decremented with `max(0, c-1)`, so they never go negative and
  truncated subtraction `c - 1` coincides with `max(0, c-1)`.
* `async` is erased: every remote interaction (HTTP call, poll) is an
  explicit oracle argument describing the outcome the event loop would
  deliver, and a Python exception is an `Except`/sum-type error value.
* Float-valued fields of the Python dataclasses (`guidance_scale`,
  `progress`, `cost_per_second`) carry no control flow relevant to the
  claims and are not modelled.
-/

namespace NovelToVideo

/-! ## Task and capability data model (`base_backend.py`) -/

/-- `TaskStatus` enum of `base_backend.py`. -/
inductive TaskStatus where
  | pending
  | processing
  | completed
  | failed
  | cancelled
  deriving DecidableEq, Repr

/-- `VideoGenerationTask` dataclass of `base_backend.py` (float fields and
the open `metadata` map omitted; `backend_used` is the attribute the
dispatcher attaches dynamically, hence an `Option` that starts `none`,
matching `getattr(result, 'backend_used', 'unknown')` reads). -/
structure VideoGenerationTask where
  task_id : String
  prompt : String
  negative_prompt : Option String := none
  duration : Nat := 4
  resolution : String := "1280x720"
  fps : Int := 24
  seed : Option Int := none
  num_inference_steps : Nat := 25
  input_image : Option String := none
  status : TaskStatus := .pending
  error_message : Option String := none
  output_path : Option String := none
  backend_used : Option String := none
  deriving DecidableEq, Repr

/-- `BackendCapabilities` dataclass of `base_backend.py` (defaults as in
`__post_init__`). -/
structure BackendCapabilities where
  name : String
  supports_text_to_video : Bool := true
  supports_image_to_video : Bool := false
  supports_video_to_video : Bool := false
  max_duration : Nat := 10
  supported_resolutions : List String := ["1280x720", "1920x1080"]
  supported_fps : List Int := [24, 30]
  requires_gpu : Bool := false
  is_local : Bool := false
  deriving DecidableEq, Repr

/-- `BaseVideoBackend.validate_task`: raises `ValueError` (here: `.error`)
on unsupported resolution, then unsupported fps, then excessive duration. -/
def validate_task (caps : BackendCapabilities) (t : VideoGenerationTask) :
    Except String Bool :=
  if t.resolution ∉ caps.supported_resolutions then
    .error ("不支持的分辨率: " ++ t.resolution)
  else if t.fps ∉ caps.supported_fps then
    .error ("不支持的帧率: " ++ toString t.fps)
  else if caps.max_duration < t.duration then
    .error ("时长超过限制: " ++ toString t.duration ++ "s > " ++
            toString caps.max_duration ++ "s")
  else
    .ok true

/-! ## Association lists standing in for Python dicts -/

/-- First-match lookup, `d[k]` / `d.get(k)` on a dict. -/
def alookup {α : Type} : List (String × α) → String → Option α
  | [], _ => none
  | (k', v) :: rest, k => if k' = k then some v else alookup rest k

/-- `d.get(k, dflt)`. -/
def alookupD {α : Type} (l : List (String × α)) (k : String) (dflt : α) : α :=
  (alookup l k).getD dflt

/-- `d[k] = v`: overwrite the existing binding or append a new one. -/
def aset {α : Type} : List (String × α) → String → α → List (String × α)
  | [], k, v => [(k, v)]
  | (k', v') :: rest, k, v =>
      if k' = k then (k', v) :: rest else (k', v') :: aset rest k v

/-- Apply `f` to the value bound to `k`, leaving the list unchanged when
`k` is absent (the dispatcher only mutates counts of registered backends,
for which the key is always present). -/
def amod {α : Type} (f : α → α) : List (String × α) → String → List (String × α)
  | [], _ => []
  | (k', v) :: rest, k =>
      if k' = k then (k', f v) :: rest else (k', v) :: amod f rest k

/-! ## Dispatcher state (`MultiBackendVideoGenerator`) -/

/-- `BackendConfig` dataclass of `multi_backend_generator.py`
(`backend_class` and `health_check_interval` omitted; `priority` is the
enum's numeric value: PRIMARY = 1, SECONDARY = 2, FALLBACK = 3). -/
structure BackendConfig where
  name : String
  priority : Nat
  enabled : Bool := true
  max_concurrent_tasks : Nat := 5
  deriving DecidableEq, Repr

/-- The dispatcher's mutable bookkeeping: `backend_configs` (insertion
order preserved, as Python dicts iterate in insertion order),
`self.backends` (successfully initialised adapters, represented by their
declared capabilities, i.e. what `backend.get_capabilities()` returns),
`self.backend_health` and `self.backend_tasks`. -/
structure GenState where
  configs : List (String × BackendConfig)
  backends : List (String × BackendCapabilities)
  health : List (String × Bool)
  tasks : List (String × Nat)
  deriving DecidableEq, Repr

/-- Stable insertion of one config entry behind all entries with a
priority value `≤` its own. -/
def insertByPriority (e : String × BackendConfig) :
    List (String × BackendConfig) → List (String × BackendConfig)
  | [] => [e]
  | x :: xs =>
      if x.2.priority ≤ e.2.priority then x :: insertByPriority e xs
      else e :: x :: xs

/-- `sorted(self.backend_configs.items(), key=lambda x: x[1].priority.value)`:
Python's sort is stable, and a stable insertion sort computes the same
list. -/
def sortByPriority : List (String × BackendConfig) → List (String × BackendConfig)
  | [] => []
  | x :: xs => insertByPriority x (sortByPriority xs)

/-- `MultiBackendVideoGenerator.get_available_backends`. -/
def get_available_backends (s : GenState) : List String :=
  ((sortByPriority s.configs).filter (fun p =>
      p.2.enabled
      && (alookup s.backends p.1).isSome
      && alookupD s.health p.1 false
      && decide (alookupD s.tasks p.1 0 < p.2.max_concurrent_tasks))).map
    Prod.fst

/-! ## Capability matching (`select_best_backend` and helpers) -/

/-- The fixed resolution-equivalence table of
`_find_compatible_resolution`; `resolution_map.get(requested, [requested])`. -/
def resolution_map (requested : String) : List String :=
  if requested = "1920x1080" then ["1920x1080", "1280x720", "1024x576"]
  else if requested = "1280x720" then ["1280x720", "1024x576", "1920x1080"]
  else if requested = "720x1280" then ["720x1280", "576x1024"]
  else if requested = "1024x1024" then ["1024x1024", "768x768"]
  else [requested]

/-- `MultiBackendVideoGenerator._find_compatible_resolution`: first table
candidate contained in `supported`, otherwise `supported[0] if supported
else None`. -/
def find_compatible_resolution (requested : String) (supported : List String) :
    Option String :=
  match (resolution_map requested).find? (fun c => decide (c ∈ supported)) with
  | some c => some c
  | none => supported.head?

/-- `min(supported_fps, key=lambda x: abs(x - task.fps))`: Python's `min`
scans left to right and keeps the current best on ties, so it returns the
first element attaining the minimal distance; `min` of an empty sequence
raises `ValueError`, hence the `Option`. -/
def closestFps (fps : Int) : List Int → Option Int
  | [] => none
  | x :: xs =>
      some (xs.foldl
        (fun best y =>
          if (y - fps).natAbs < (best - fps).natAbs then y else best) x)

/-- Error text standing in for the `ValueError` that Python's
`min()` raises on an empty sequence. -/
def minEmptyMsg : String := "min() arg is an empty sequence"

/-- Resolution step of the loop body of `select_best_backend` (lines
176–183): keep a supported resolution, otherwise substitute the
compatible one; `if not compatible_resolution: continue` treats both
`None` and the empty string as falsy, hence `none` for both. -/
def adapt_resolution (caps : BackendCapabilities) (t : VideoGenerationTask) :
    Option VideoGenerationTask :=
  if t.resolution ∈ caps.supported_resolutions then some t
  else
    match find_compatible_resolution t.resolution caps.supported_resolutions with
    | none => none
    | some r => if r = "" then none else some { t with resolution := r }

/-- Fps step of the loop body of `select_best_backend` (lines 185–187):
substitute the nearest supported fps; `min` of an empty list raises. -/
def adapt_fps (caps : BackendCapabilities) (t1 : VideoGenerationTask) :
    Except String VideoGenerationTask :=
  if t1.fps ∈ caps.supported_fps then .ok t1
  else
    match closestFps t1.fps caps.supported_fps with
    | none => .error minEmptyMsg
    | some f => .ok { t1 with fps := f }

/-- One iteration of the `select_best_backend` loop against a single
backend's capabilities: `.ok none` is Python's `continue`, `.ok (some t2)`
means this backend is selected with the adapted task `t2`. -/
def check_backend (caps : BackendCapabilities) (t : VideoGenerationTask) :
    Except String (Option VideoGenerationTask) :=
  if t.input_image.isSome && !caps.supports_image_to_video then .ok none
  else if caps.max_duration < t.duration then .ok none
  else
    match adapt_resolution caps t with
    | none => .ok none
    | some t1 =>
      match adapt_fps caps t1 with
      | .error e => .error e
      | .ok t2 => .ok (some t2)

/-- The loop of `select_best_backend` over the available-backend names.
Mutations of `task.resolution` / `task.fps` are committed exactly on the
selected backend (the code `return`s right after them).  A name missing
from `self.backends` is skipped here; in the source that lookup cannot
fail because available names are registered. -/
def select_loop (s : GenState) (t : VideoGenerationTask) :
    List String → Except String (Option (String × VideoGenerationTask))
  | [] => .ok none
  | name :: rest =>
    match alookup s.backends name with
    | none => select_loop s t rest
    | some caps =>
      match check_backend caps t with
      | .error e => .error e
      | .ok none => select_loop s t rest
      | .ok (some t2) => .ok (some (name, t2))

/-- `MultiBackendVideoGenerator.select_best_backend`. -/
def select_best_backend (s : GenState) (t : VideoGenerationTask) :
    Except String (Option (String × VideoGenerationTask)) :=
  select_loop s t (get_available_backends s)

/-! ## The dispatcher (`generate_video` / `_failover_generate`) -/

/-- `task.error_message = "没有可用的后端"` ("no backend available") set by
`generate_video` when selection finds no backend. -/
def noBackendMsg : String := "没有可用的后端"

/-- `task.error_message = "所有后端都不可用"` ("all backends unavailable")
set by `_failover_generate` when the exclusion set exhausts the available
backends. -/
def allUnavailMsg : String := "所有后端都不可用"

/-- The behaviour of the adapter layer during one dispatch: what
`await backend.generate_video(task)` does for each backend name.
`.ok` is a normal return, `.error` a raised exception. -/
abbrev AdapterOracle := String → VideoGenerationTask → Except String VideoGenerationTask

/-- Result of one dispatcher entry point.  `.exn` is an exception escaping
the method (only `select_best_backend`'s `min()` on an empty fps list can
do that — it runs before the `try` block).  `.fuelOut` is an artifact of
bounding the failover recursion by fuel; the termination theorem shows it
is never reached with fuel at least the number of configured backends. -/
inductive DispatchResult where
  | ok (s : GenState) (t : VideoGenerationTask)
  | exn (e : String)
  | fuelOut
  deriving Repr

/-- `self.backend_tasks[name] += 1` (quota reservation). -/
def incTasks (s : GenState) (name : String) : GenState :=
  { s with tasks := amod (fun c => c + 1) s.tasks name }

/-- `finally: if name in self.backend_tasks:
self.backend_tasks[name] = max(0, self.backend_tasks[name] - 1)`;
on naturals truncated subtraction is exactly `max(0, c - 1)`. -/
def decTasks (s : GenState) (name : String) : GenState :=
  { s with tasks := amod (fun c => c - 1) s.tasks name }

/-- `self.backend_health[name] = False`. -/
def markUnhealthy (s : GenState) (name : String) : GenState :=
  { s with health := aset s.health name false }

/-- `MultiBackendVideoGenerator._failover_generate`.  Each frame filters
the excluded names out of the available list, reserves the head backend,
invokes its adapter, and on an exception appends that backend to the
exclusion list and recurses; the `finally` release runs after the
recursive call returns, so it is applied to the recursion's state. -/
def failover_generate (A : AdapterOracle) (s : GenState)
    (t : VideoGenerationTask) (exclude : List String) :
    Nat → DispatchResult
  | 0 => .fuelOut
  | fuel + 1 =>
    match (get_available_backends s).filter (fun b => decide (b ∉ exclude)) with
    | [] =>
        .ok s { t with status := .failed, error_message := some allUnavailMsg }
    | name :: _ =>
      match A name t with
      | .ok u =>
          .ok (decTasks (incTasks s name) name) { u with backend_used := some name }
      | .error _ =>
        match failover_generate A (incTasks s name) t (exclude ++ [name]) fuel with
        | .ok s2 r => .ok (decTasks s2 name) r
        | other => other

/-- `MultiBackendVideoGenerator.generate_video`: select (outside the
`try`, so an exception there escapes), reserve, invoke, on success attach
`backend_used`, on an adapter exception mark the backend unhealthy and
fail over; the `finally` release runs on every exit of the `try`. -/
def generate_video (A : AdapterOracle) (s : GenState)
    (t : VideoGenerationTask) (fuel : Nat) : DispatchResult :=
  match select_best_backend s t with
  | .error e => .exn e
  | .ok none =>
      .ok s { t with status := .failed, error_message := some noBackendMsg }
  | .ok (some (name, t1)) =>
    match A name t1 with
    | .ok u =>
        .ok (decTasks (incTasks s name) name) { u with backend_used := some name }
    | .error _ =>
      match failover_generate A (markUnhealthy (incTasks s name) name) t1
          [name] fuel with
      | .ok s2 r => .ok (decTasks s2 name) r
      | other => other

/-! ## Batch coordinator (`VideoGenerator.generate_videos`) -/

/-- One element of the `scenes` list: the dict fields `generate_videos`
reads via `scene.get(...)`, `none` standing for an absent key. -/
structure Scene where
  description : Option String := none
  duration : Option Nat := none
  resolution : Option String := none
  fps : Option Int := none
  seed : Option Int := none
  num_inference_steps : Option Nat := none
  negative_prompt : Option String := none
  input_image : Option String := none
  deriving DecidableEq, Repr

/-- Task construction of `generate_videos` (lines 57–70); `ids i` stands
for the `str(uuid.uuid4())` drawn for scene `i`. -/
def mkTask (ids : Nat → String) (i : Nat) (sc : Scene) : VideoGenerationTask :=
  { task_id := ids i
    prompt := sc.description.getD ""
    duration := sc.duration.getD 5
    resolution := sc.resolution.getD "1280x720"
    fps := sc.fps.getD 24
    seed := sc.seed
    num_inference_steps := sc.num_inference_steps.getD 25
    negative_prompt := sc.negative_prompt
    input_image := sc.input_image }

/-- One element of the list `generate_videos` returns: the exception
branch builds a four-key dict, the normal branch an eight-key dict, so the
two dict shapes become two constructors.  `backend_used` is
`getattr(result, 'backend_used', 'unknown')`. -/
inductive ResultEntry where
  | exnEntry (scene_index : Nat) (error : String)
  | taskEntry (scene_index : Nat) (success : Bool) (error : Option String)
      (video_path : Option String) (task_id : String) (backend_used : String)
      (duration : Nat) (resolution : String)
  deriving DecidableEq, Repr

/-- The `scene_index` field common to both entry shapes. -/
def ResultEntry.sceneIdx : ResultEntry → Nat
  | .exnEntry i _ => i
  | .taskEntry i _ _ _ _ _ _ _ => i

/-- The result-processing loop body of `generate_videos` (lines 87–107),
applied to the outcome `asyncio.gather(..., return_exceptions=True)`
collected for position `i`. -/
def mkResultEntry (i : Nat) : Except String VideoGenerationTask → ResultEntry
  | .error e => .exnEntry i e
  | .ok r =>
    let ok := r.status = .completed
    .taskEntry i ok
      (if ok then none else r.error_message)
      (if ok then r.output_path else none)
      r.task_id (r.backend_used.getD "unknown") r.duration r.resolution

/-- `VideoGenerator.generate_videos`: build one task per scene, run them
all (the semaphore bounds concurrency but `asyncio.gather` returns results
in argument order regardless of completion order, with
`return_exceptions=True` turning a raised exception into an item), then
convert each outcome into a result entry.  `gen i` is the outcome of
`self.multi_backend.generate_video` for the `i`-th task. -/
def generate_videos (ids : Nat → String)
    (gen : Nat → VideoGenerationTask → Except String VideoGenerationTask)
    (scenes : List Scene) : List ResultEntry :=
  let tasks := scenes.enum.map (fun p => mkTask ids p.1 p.2)
  let completed := tasks.enum.map (fun p => gen p.1 p.2)
  completed.enum.map (fun p => mkResultEntry p.1 p.2)

/-! ## Concrete backend adapters

Each adapter's `generate_video` wraps its whole body in
`try: ... except Exception as e: task.status=FAILED;
task.error_message=str(e); return task`.  The body is embedded as a
function into `Except (String × VideoGenerationTask) VideoGenerationTask`:
an `.error (e, t)` is a raised exception `e` together with the task as
mutated up to the raise point, and the shared wrapper `adapterReturn`
is the `except` clause. -/

/-- Outcome of the one HTTP submit call (`aiohttp` POST): a response with
status code and body text, or a transport-level exception. -/
inductive HttpOutcome where
  | resp (code : Nat) (body : String)
  | raise (e : String)
  deriving DecidableEq, Repr

/-- `if not self.api_key or self.api_key == '<placeholder>'` — a missing
key, the empty string and the placeholder all count as unconfigured. -/
def keyConfigured (key : Option String) (placeholder : String) : Bool :=
  match key with
  | none => false
  | some k => !(k = "") && !(k = placeholder)

/-- `task.error_message = "任务超时"` set by every `_wait_for_completion`
when the poll budget is exhausted. -/
def timeoutMsg : String := "任务超时"

/-- The shared `_wait_for_completion` loop: poll every fixed interval
until a terminal status or the iteration budget runs out; an exception
while polling is caught and the loop keeps waiting (the progress update
touches only the unmodelled float field).  `poll i` is the outcome of the
`i`-th `get_task_status` call. -/
def waitLoop (poll : Nat → Except String VideoGenerationTask)
    (t : VideoGenerationTask) : Nat → Nat → VideoGenerationTask
  | _, 0 => { t with status := .failed, error_message := some timeoutMsg }
  | i, n + 1 =>
    match poll i with
    | .error _ => waitLoop poll t (i + 1) n
    | .ok u =>
      if u.status = .completed then u
      else if u.status = .failed then u
      else waitLoop poll t (i + 1) n

/-- The `except Exception` clause shared by all four adapters. -/
def adapterReturn :
    Except (String × VideoGenerationTask) VideoGenerationTask →
    VideoGenerationTask
  | .ok r => r
  | .error (e, t) => { t with status := .failed, error_message := some e }

/-- `RunwayBackend._get_capabilities`. -/
def runwayCapabilities : BackendCapabilities :=
  { name := "Runway ML"
    supports_text_to_video := true
    supports_image_to_video := true
    supports_video_to_video := true
    max_duration := 10
    supported_resolutions := ["1280x720", "1920x1080", "720x1280"]
    supported_fps := [24, 30] }

/-- `SVDBackend._get_capabilities`. -/
def svdCapabilities : BackendCapabilities :=
  { name := "Stable Video Diffusion"
    supports_text_to_video := true
    supports_image_to_video := true
    supports_video_to_video := false
    max_duration := 8
    supported_resolutions := ["576x1024", "1024x576", "768x768"]
    supported_fps := [6, 12, 24]
    requires_gpu := true
    is_local := true }

/-- `PikaBackend._get_capabilities`. -/
def pikaCapabilities : BackendCapabilities :=
  { name := "Pika Labs"
    supports_text_to_video := true
    supports_image_to_video := true
    supports_video_to_video := false
    max_duration := 4
    supported_resolutions := ["1024x576", "576x1024", "1024x1024"]
    supported_fps := [24] }

/-- `LumaBackend._get_capabilities`. -/
def lumaCapabilities : BackendCapabilities :=
  { name := "Luma Dream Machine"
    supports_text_to_video := true
    supports_image_to_video := true
    supports_video_to_video := false
    max_duration := 5
    supported_resolutions := ["1024x576", "576x1024", "768x768"]
    supported_fps := [30] }

def runwayKeyMsg : String := "Runway API密钥未配置"

def pikaKeyMsg : String := "Pika Labs API密钥未配置"

def lumaKeyMsg : String := "Luma Dream Machine API密钥未配置"

def runwayApiErr (code : Nat) (body : String) : String :=
  "Runway API错误: " ++ toString code ++ " - " ++ body

def svdApiErr (code : Nat) (body : String) : String :=
  "SVD API错误: " ++ toString code ++ " - " ++ body

def pikaApiErr (code : Nat) (body : String) : String :=
  "Pika Labs API错误: " ++ toString code ++ " - " ++ body

def lumaApiErr (code : Nat) (body : String) : String :=
  "Luma Dream Machine API错误: " ++ toString code ++ " - " ++ body

/-- `int(resolution.split('x')[0])`, `int(resolution.split('x')[1])` used
by the SVD request builder; `none` stands for the `IndexError`/`ValueError`
Python raises on a malformed resolution string. -/
def parseResolution (s : String) : Option (Nat × Nat) :=
  match s.splitOn "x" with
  | w :: h :: _ =>
    match w.toNat?, h.toNat? with
    | some a, some b => some (a, b)
    | _, _ => none
  | _ => none

/-- Stand-in message for the exception raised while parsing a malformed
resolution in the SVD request builder. -/
def svdParseMsg : String := "invalid resolution"

/-- Body of `RunwayBackend.generate_video` (max wait 600s at 10s
intervals, i.e. at most 60 polls; `remoteId` is the `id` field of the
submit response, `result.get('id', task.task_id)`). -/
def runwayGenerateBody (key : Option String) (net : HttpOutcome)
    (remoteId : Option String) (poll : Nat → Except String VideoGenerationTask)
    (t : VideoGenerationTask) :
    Except (String × VideoGenerationTask) VideoGenerationTask :=
  if !keyConfigured key "your-runway-api-key-here" then .error (runwayKeyMsg, t)
  else match validate_task runwayCapabilities t with
  | .error e => .error (e, t)
  | .ok _ =>
    match net with
    | .raise e => .error (e, t)
    | .resp code body =>
      if code = 200 then
        let t1 := { t with task_id := remoteId.getD t.task_id,
                           status := .processing }
        .ok (waitLoop poll t1 0 60)
      else .error (runwayApiErr code body, t)

/-- `RunwayBackend.generate_video`: the body under the catch-all
`except`. -/
def runwayGenerate (key : Option String) (net : HttpOutcome)
    (remoteId : Option String) (poll : Nat → Except String VideoGenerationTask)
    (t : VideoGenerationTask) : VideoGenerationTask :=
  adapterReturn (runwayGenerateBody key net remoteId poll t)

/-- Body of `SVDBackend.generate_video` (no API-key check; resolution is
parsed while building the request; max wait 600s at 5s intervals, i.e. at
most 120 polls). -/
def svdGenerateBody (net : HttpOutcome) (remoteId : Option String)
    (poll : Nat → Except String VideoGenerationTask)
    (t : VideoGenerationTask) :
    Except (String × VideoGenerationTask) VideoGenerationTask :=
  match validate_task svdCapabilities t with
  | .error e => .error (e, t)
  | .ok _ =>
    match parseResolution t.resolution with
    | none => .error (svdParseMsg, t)
    | some _ =>
      match net with
      | .raise e => .error (e, t)
      | .resp code body =>
        if code = 200 then
          let t1 := { t with task_id := remoteId.getD t.task_id,
                             status := .processing }
          .ok (waitLoop poll t1 0 120)
        else .error (svdApiErr code body, t)

/-- `SVDBackend.generate_video`. -/
def svdGenerate (net : HttpOutcome) (remoteId : Option String)
    (poll : Nat → Except String VideoGenerationTask)
    (t : VideoGenerationTask) : VideoGenerationTask :=
  adapterReturn (svdGenerateBody net remoteId poll t)

/-- Body of `PikaBackend.generate_video` (duration clamp `> 4 → 4` before
the request is built; max wait 300s at 5s intervals, i.e. at most 60
polls; the aspect-ratio conversion is a total table lookup with default
and is elided). -/
def pikaGenerateBody (key : Option String) (net : HttpOutcome)
    (remoteId : Option String) (poll : Nat → Except String VideoGenerationTask)
    (t : VideoGenerationTask) :
    Except (String × VideoGenerationTask) VideoGenerationTask :=
  if !keyConfigured key "your-pika-api-key-here" then .error (pikaKeyMsg, t)
  else match validate_task pikaCapabilities t with
  | .error e => .error (e, t)
  | .ok _ =>
    let t0 := if 4 < t.duration then { t with duration := 4 } else t
    match net with
    | .raise e => .error (e, t0)
    | .resp code body =>
      if code = 200 then
        let t1 := { t0 with task_id := remoteId.getD t0.task_id,
                            status := .processing }
        .ok (waitLoop poll t1 0 60)
      else .error (pikaApiErr code body, t0)

/-- `PikaBackend.generate_video`. -/
def pikaGenerate (key : Option String) (net : HttpOutcome)
    (remoteId : Option String) (poll : Nat → Except String VideoGenerationTask)
    (t : VideoGenerationTask) : VideoGenerationTask :=
  adapterReturn (pikaGenerateBody key net remoteId poll t)

/-- Body of `LumaBackend.generate_video` (duration clamp `> 5 → 5`;
success is HTTP 201, not 200; max wait 240s at 5s intervals, i.e. at most
48 polls). -/
def lumaGenerateBody (key : Option String) (net : HttpOutcome)
    (remoteId : Option String) (poll : Nat → Except String VideoGenerationTask)
    (t : VideoGenerationTask) :
    Except (String × VideoGenerationTask) VideoGenerationTask :=
  if !keyConfigured key "your-luma-api-key-here" then .error (lumaKeyMsg, t)
  else match validate_task lumaCapabilities t with
  | .error e => .error (e, t)
  | .ok _ =>
    let t0 := if 5 < t.duration then { t with duration := 5 } else t
    match net with
    | .raise e => .error (e, t0)
    | .resp code body =>
      if code = 201 then
        let t1 := { t0 with task_id := remoteId.getD t0.task_id,
                            status := .processing }
        .ok (waitLoop poll t1 0 48)
      else .error (lumaApiErr code body, t0)

/-- `LumaBackend.generate_video`. -/
def lumaGenerate (key : Option String) (net : HttpOutcome)
    (remoteId : Option String) (poll : Nat → Except String VideoGenerationTask)
    (t : VideoGenerationTask) : VideoGenerationTask :=
  adapterReturn (lumaGenerateBody key net remoteId poll t)

/-! ## Derived notions used by the statements -/

/-- `abs(x - task.fps)`, the distance the fps substitution minimises. -/
def distTo (fps v : Int) : Nat := (v - fps).natAbs

/-- Comparison definition for the fps tie-break refinement, following the
amended spec wording: the substituted fps is the first value in
supported-list order attaining the minimal distance to the requested
fps. -/
def specClosestFps (fps : Int) (l : List Int) : Option Int :=
  l.find? (fun v => decide (∀ w ∈ l, distTo fps v ≤ distTo fps w))

/-- Invariant: every configured backend's active-task count lies within
`[0, max_concurrent_tasks]` (counts are naturals, so the lower bound is
definitional). -/
def countsOK (s : GenState) : Prop :=
  ∀ p ∈ s.configs, alookupD s.tasks p.1 0 ≤ p.2.max_concurrent_tasks

/-- The number of configured backend names not yet excluded: the
termination measure of the failover recursion. -/
def numRemaining (names exclude : List String) : Nat :=
  (names.filter (fun n => decide (n ∉ exclude))).length

/-- Boolean prefix test on character lists (for substring statements
about the error-message constants). -/
def startsWithChars : List Char → List Char → Bool
  | [], _ => true
  | _ :: _, [] => false
  | a :: as, b :: bs => a == b && startsWithChars as bs

/-- Boolean substring test on character lists. -/
def hasSubChars (pat : List Char) : List Char → Bool
  | [] => startsWithChars pat []
  | b :: bs => startsWithChars pat (b :: bs) || hasSubChars pat bs

/-! ## Concrete fixtures for witnesses and counterexamples -/

/-- An adapter layer whose every call returns normally with a completed
task. -/
def okAdapter : AdapterOracle :=
  fun _ u => .ok { u with status := .completed }

/-- An adapter layer where backend `"p"` raises a transport error and any
other backend succeeds. -/
def failPAdapter : AdapterOracle :=
  fun n u => if n = "p" then .error "connection reset" else
    .ok { u with status := .completed }

/-- An adapter layer where every call raises. -/
def failAllAdapter : AdapterOracle :=
  fun _ _ => .error "connection reset"

/-- Single backend accepting "1024x576"@24fps, image-capable. -/
def capsA : BackendCapabilities :=
  { name := "A", supports_image_to_video := true, max_duration := 10,
    supported_resolutions := ["1024x576"], supported_fps := [24] }

def cfgA : BackendConfig :=
  { name := "A", priority := 1, enabled := true, max_concurrent_tasks := 3 }

def stA : GenState :=
  { configs := [("a", cfgA)], backends := [("a", capsA)],
    health := [("a", true)], tasks := [("a", 0)] }

/-- A task requesting 1920x1080 at 30 fps for 3 seconds. -/
def taskA : VideoGenerationTask :=
  { task_id := "t1", prompt := "p", duration := 3,
    resolution := "1920x1080", fps := 30 }

/-- Two-backend state: primary `"p"` and secondary `"q"`, both healthy,
idle and accepting the default 1280x720@24fps task. -/
def capsPQ : BackendCapabilities :=
  { name := "PQ", supports_image_to_video := true, max_duration := 10,
    supported_resolutions := ["1280x720"], supported_fps := [24] }

def cfgP : BackendConfig :=
  { name := "P", priority := 1, enabled := true, max_concurrent_tasks := 3 }

def cfgQ : BackendConfig :=
  { name := "Q", priority := 2, enabled := true, max_concurrent_tasks := 3 }

def stPQ : GenState :=
  { configs := [("p", cfgP), ("q", cfgQ)],
    backends := [("p", capsPQ), ("q", capsPQ)],
    health := [("p", true), ("q", true)],
    tasks := [("p", 0), ("q", 0)] }

/-- A default-parameter task (1280x720, 24 fps, 3 s). -/
def taskPQ : VideoGenerationTask :=
  { task_id := "t2", prompt := "p", duration := 3 }

/-- One backend whose declared maximum duration is 4 seconds. -/
def capsD4 : BackendCapabilities :=
  { name := "D4", supports_image_to_video := true, max_duration := 4,
    supported_resolutions := ["1280x720"], supported_fps := [24] }

def stD4 : GenState :=
  { configs := [("d", cfgA)], backends := [("d", capsD4)],
    health := [("d", true)], tasks := [("d", 0)] }

/-- A task requesting 10 seconds (against the 4-second backend above). -/
def taskDur10 : VideoGenerationTask :=
  { task_id := "t3", prompt := "p", duration := 10 }

/-- A backend listing 30 before 24 in `supported_fps`, otherwise
accepting the default task. -/
def capsFps : BackendCapabilities :=
  { name := "F", supports_image_to_video := true, max_duration := 10,
    supported_resolutions := ["1280x720"], supported_fps := [30, 24] }

def stFps : GenState :=
  { configs := [("f", cfgA)], backends := [("f", capsFps)],
    health := [("f", true)], tasks := [("f", 0)] }

/-- A task requesting 27 fps, equidistant from 24 and 30. -/
def taskFps27 : VideoGenerationTask :=
  { task_id := "t4", prompt := "p", duration := 3, fps := 27 }

/-- A state whose single backend is disabled. -/
def stDisabled : GenState :=
  { configs := [("a", { cfgA with enabled := false })],
    backends := [("a", capsA)], health := [("a", true)],
    tasks := [("a", 0)] }

/-! ## Association-list lemmas -/

theorem alookup_aset_self {α : Type} (l : List (String × α)) (k : String)
    (v : α) : alookup (aset l k v) k = some v := by
  induction l with
  | nil => simp [aset, alookup]
  | cons x xs ih =>
    obtain ⟨k', v'⟩ := x
    by_cases h : k' = k
    · simp [aset, h, alookup]
    · simp [aset, h, alookup, ih]

theorem alookup_amod_self {α : Type} (f : α → α) (l : List (String × α))
    (k : String) : alookup (amod f l k) k = (alookup l k).map f := by
  induction l with
  | nil => simp [amod, alookup]
  | cons x xs ih =>
    obtain ⟨k', v'⟩ := x
    by_cases h : k' = k
    · simp [amod, h, alookup]
    · simp [amod, h, alookup, ih]

theorem alookup_amod_ne {α : Type} (f : α → α) (l : List (String × α))
    {k k' : String} (h : k' ≠ k) :
    alookup (amod f l k) k' = alookup l k' := by
  induction l with
  | nil => simp [amod]
  | cons x xs ih =>
    obtain ⟨k₀, v₀⟩ := x
    by_cases hk : k₀ = k
    · subst hk
      have hne : k₀ ≠ k' := fun hh => h hh.symm
      simp [amod, alookup, hne]
    · by_cases hk' : k₀ = k'
      · subst hk'
        simp [amod, hk, alookup]
      · simp [amod, hk, alookup, hk', ih]

theorem amod_cancel {α : Type} (f g : α → α) (h : ∀ v, g (f v) = v)
    (l : List (String × α)) (k : String) : amod g (amod f l k) k = l := by
  induction l with
  | nil => simp [amod]
  | cons x xs ih =>
    obtain ⟨k', v'⟩ := x
    by_cases hk : k' = k
    · simp [amod, hk, h]
    · simp [amod, hk, ih]

/-- In an association list with duplicate-free keys, membership of a pair
determines the lookup result. -/
theorem alookup_eq_of_mem_nodup {α : Type} {l : List (String × α)}
    {k : String} {v : α} (hn : (l.map Prod.fst).Nodup) (hm : (k, v) ∈ l) :
    alookup l k = some v := by
  induction l with
  | nil => cases hm
  | cons x xs ih =>
    obtain ⟨k', v'⟩ := x
    rw [List.map_cons] at hn
    obtain ⟨hn1, hn2⟩ := List.nodup_cons.mp hn
    rcases List.mem_cons.mp hm with h | h
    · injection h with h1 h2
      subst h1
      subst h2
      simp [alookup]
    · have hk : k' ≠ k := by
        intro he
        subst he
        exact hn1 (List.mem_map.mpr ⟨(k', v), h, rfl⟩)
      simp [alookup, hk, ih hn2 h]

/-! ## Stable priority sort: a permutation of the input -/

theorem insertByPriority_perm (e : String × BackendConfig)
    (l : List (String × BackendConfig)) :
    (insertByPriority e l).Perm (e :: l) := by
  induction l with
  | nil => simp [insertByPriority]
  | cons x xs ih =>
    by_cases h : x.2.priority ≤ e.2.priority
    · simp only [insertByPriority, if_pos h]
      exact (ih.cons x).trans (List.Perm.swap e x xs)
    · simp only [insertByPriority, if_neg h]
      exact List.Perm.refl _

theorem sortByPriority_perm (l : List (String × BackendConfig)) :
    (sortByPriority l).Perm l := by
  induction l with
  | nil => simp [sortByPriority]
  | cons x xs ih =>
    simp only [sortByPriority]
    exact (insertByPriority_perm x (sortByPriority xs)).trans (ih.cons x)

theorem mem_sortByPriority {x : String × BackendConfig}
    {l : List (String × BackendConfig)} :
    x ∈ sortByPriority l ↔ x ∈ l :=
  (sortByPriority_perm l).mem_iff

/-! ## Availability lemmas -/

theorem mem_available {s : GenState} {name : String} :
    name ∈ get_available_backends s ↔
      ∃ cfg, (name, cfg) ∈ s.configs ∧ cfg.enabled = true ∧
        (alookup s.backends name).isSome = true ∧
        alookupD s.health name false = true ∧
        alookupD s.tasks name 0 < cfg.max_concurrent_tasks := by
  unfold get_available_backends
  simp only [List.mem_map, List.mem_filter, mem_sortByPriority,
    Bool.and_eq_true, decide_eq_true_eq]
  constructor
  · rintro ⟨⟨n, cfg⟩, ⟨hmem, ⟨⟨⟨h1, h2⟩, h3⟩, h4⟩⟩, rfl⟩
    exact ⟨cfg, hmem, h1, h2, h3, h4⟩
  · rintro ⟨cfg, hmem, h1, h2, h3, h4⟩
    exact ⟨(name, cfg), ⟨hmem, ⟨⟨⟨h1, h2⟩, h3⟩, h4⟩⟩, rfl⟩

theorem available_eq_nil {s : GenState}
    (h : ∀ p ∈ s.configs,
      p.2.enabled = false ∨ alookupD s.health p.1 false = false) :
    get_available_backends s = [] := by
  unfold get_available_backends
  have hf : (sortByPriority s.configs).filter (fun p =>
      p.2.enabled
      && (alookup s.backends p.1).isSome
      && alookupD s.health p.1 false
      && decide (alookupD s.tasks p.1 0 < p.2.max_concurrent_tasks)) = [] := by
    refine List.filter_eq_nil_iff.mpr ?_
    intro p hp
    rcases h p (mem_sortByPriority.mp hp) with h1 | h1 <;> simp [h1]
  rw [hf]
  rfl

/-! ## Capability-matcher lemmas -/

theorem head?_mem {α : Type} {l : List α} {a : α} (h : l.head? = some a) :
    a ∈ l := by
  cases l with
  | nil => simp at h
  | cons x xs =>
    simp only [List.head?_cons, Option.some.injEq] at h
    exact h ▸ List.mem_cons_self x xs

/-- Whatever `_find_compatible_resolution` returns is an element of the
supported list (either a table candidate found in it, or its first
element). -/
theorem find_compatible_mem {requested : String} {supported : List String}
    {r : String} (h : find_compatible_resolution requested supported = some r) :
    r ∈ supported := by
  unfold find_compatible_resolution at h
  cases hf : (resolution_map requested).find? (fun c => decide (c ∈ supported)) with
  | some c =>
    rw [hf, Option.some.injEq] at h
    subst h
    have hp := List.find?_some hf
    simp only [decide_eq_true_eq] at hp
    exact hp
  | none =>
    rw [hf] at h
    exact head?_mem h

theorem closestFold_mem (fps x : Int) (xs : List Int) :
    xs.foldl
      (fun best y =>
        if (y - fps).natAbs < (best - fps).natAbs then y else best) x
      ∈ x :: xs := by
  induction xs generalizing x with
  | nil => simp
  | cons y ys ih =>
    simp only [List.foldl_cons]
    rcases List.mem_cons.mp
        (ih (if (y - fps).natAbs < (x - fps).natAbs then y else x)) with h | h
    · by_cases hp : (y - fps).natAbs < (x - fps).natAbs
      · rw [h, if_pos hp]
        exact List.mem_cons_of_mem _ (List.mem_cons_self _ _)
      · rw [h, if_neg hp]
        exact List.mem_cons_self _ _
    · exact List.mem_cons_of_mem _ (List.mem_cons_of_mem _ h)

/-- The substituted fps is always drawn from the supported list. -/
theorem closestFps_mem {fps : Int} {l : List Int} {v : Int}
    (h : closestFps fps l = some v) : v ∈ l := by
  cases l with
  | nil => simp [closestFps] at h
  | cons x xs =>
    simp only [closestFps, Option.some.injEq] at h
    exact h ▸ closestFold_mem fps x xs

/-- Resolution adaptation commits a supported resolution and changes no
other field. -/
theorem adapt_resolution_spec {caps : BackendCapabilities}
    {t t1 : VideoGenerationTask} (h : adapt_resolution caps t = some t1) :
    t1.resolution ∈ caps.supported_resolutions ∧ t1.task_id = t.task_id ∧
    t1.duration = t.duration ∧ t1.input_image = t.input_image ∧
    t1.backend_used = t.backend_used ∧ t1.status = t.status ∧
    t1.fps = t.fps := by
  unfold adapt_resolution at h
  split at h
  · next hmem =>
    injection h with h'
    subst h'
    exact ⟨hmem, rfl, rfl, rfl, rfl, rfl, rfl⟩
  · split at h
    · exact absurd h (by simp)
    · next r hf =>
      split at h
      · exact absurd h (by simp)
      · injection h with h'
        subst h'
        exact ⟨find_compatible_mem hf, rfl, rfl, rfl, rfl, rfl, rfl⟩

/-- Fps adaptation commits a supported fps and changes no other field. -/
theorem adapt_fps_spec {caps : BackendCapabilities}
    {t1 t2 : VideoGenerationTask} (h : adapt_fps caps t1 = .ok t2) :
    t2.fps ∈ caps.supported_fps ∧ t2.task_id = t1.task_id ∧
    t2.duration = t1.duration ∧ t2.input_image = t1.input_image ∧
    t2.backend_used = t1.backend_used ∧ t2.status = t1.status ∧
    t2.resolution = t1.resolution := by
  unfold adapt_fps at h
  split at h
  · next hmem =>
    injection h with h'
    subst h'
    exact ⟨hmem, rfl, rfl, rfl, rfl, rfl, rfl⟩
  · split at h
    · exact absurd h (by simp)
    · next f hc =>
      injection h with h'
      subst h'
      exact ⟨closestFps_mem hc, rfl, rfl, rfl, rfl, rfl, rfl⟩

/-- One selection-loop iteration that accepts a backend yields a task
within all declared capability bounds of that backend. -/
theorem check_backend_spec {caps : BackendCapabilities}
    {t t2 : VideoGenerationTask} (h : check_backend caps t = .ok (some t2)) :
    (t2.input_image.isSome = true → caps.supports_image_to_video = true) ∧
    t2.duration ≤ caps.max_duration ∧
    t2.task_id = t.task_id ∧ t2.duration = t.duration ∧
    t2.input_image = t.input_image ∧ t2.backend_used = t.backend_used ∧
    t2.status = t.status ∧
    t2.resolution ∈ caps.supported_resolutions ∧
    t2.fps ∈ caps.supported_fps := by
  unfold check_backend at h
  split at h
  · exact absurd h (by simp)
  · next h1 =>
    split at h
    · exact absurd h (by simp)
    · next h2 =>
      split at h
      · exact absurd h (by simp)
      · next t1 hres =>
        split at h
        · exact absurd h (by simp)
        · next u hfps =>
          injection h with h'
          injection h' with h''
          subst h''
          obtain ⟨hr1, hr2, hr3, hr4, hr5, hr6, hr7⟩ :=
            adapt_resolution_spec hres
          obtain ⟨hf1, hf2, hf3, hf4, hf5, hf6, hf7⟩ := adapt_fps_spec hfps
          refine ⟨?_, ?_, hf2.trans hr2, hf3.trans hr3, hf4.trans hr4,
            hf5.trans hr5, hf6.trans hr6, hf7 ▸ hr1, hf1⟩
          · intro hi
            rw [hf4, hr4] at hi
            by_contra hc
            rw [Bool.not_eq_true] at hc
            exact h1 (by simp [hi, hc])
          · rw [hf3, hr3]
            exact Nat.le_of_not_lt h2

/-- Backbone of claim C1: a successful pass through the selection loop
returns a backend registered in `self.backends` together with a task
that satisfies all of that backend's declared capability bounds; fields
other than `resolution` and `fps` are untouched. -/
theorem select_loop_spec {s : GenState} {t : VideoGenerationTask}
    {l : List String} {name : String} {t' : VideoGenerationTask}
    (h : select_loop s t l = .ok (some (name, t'))) :
    ∃ caps, alookup s.backends name = some caps ∧
      t'.task_id = t.task_id ∧ t'.duration = t.duration ∧
      t'.input_image = t.input_image ∧ t'.backend_used = t.backend_used ∧
      t'.status = t.status ∧
      (t'.input_image.isSome = true → caps.supports_image_to_video = true) ∧
      t'.duration ≤ caps.max_duration ∧
      t'.resolution ∈ caps.supported_resolutions ∧
      t'.fps ∈ caps.supported_fps := by
  induction l with
  | nil => simp [select_loop] at h
  | cons n rest ih =>
    rw [select_loop] at h
    split at h
    · exact ih h
    · next caps hb =>
      split at h
      · exact absurd h (by simp)
      · exact ih h
      · next t2 hcb =>
        injection h with h'
        injection h' with h''
        obtain ⟨rfl, rfl⟩ := Prod.mk.injEq .. |>.mp h''
        obtain ⟨g1, g2, g3, g4, g5, g6, g7, g8, g9⟩ := check_backend_spec hcb
        exact ⟨caps, hb, g3, g4, g5, g6, g7, g1, g2, g8, g9⟩

/-! ## Dispatcher lemmas -/

/-- Releasing right after reserving restores the state exactly:
`max(0, (c+1)-1) = c` on naturals. -/
theorem decTasks_incTasks (s : GenState) (name : String) :
    decTasks (incTasks s name) name = s := by
  unfold decTasks incTasks
  simp only
  rw [amod_cancel (fun c => c + 1) (fun c => c - 1) (fun v => Nat.add_sub_cancel v 1)]

/-- A completed failover chain leaves every piece of dispatcher state as
it found it (each frame's reservation is released by its `finally`), and
its result is either the all-backends-unavailable failure of the input
task or the result of one adapter call on a backend outside the exclusion
set, stamped with that backend's name. -/
theorem failover_spec :
    ∀ (fuel : Nat) (A : AdapterOracle) (s : GenState)
      (t : VideoGenerationTask) (exclude : List String)
      (s' : GenState) (r : VideoGenerationTask),
      failover_generate A s t exclude fuel = .ok s' r →
      s'.configs = s.configs ∧ s'.backends = s.backends ∧
      s'.health = s.health ∧ s'.tasks = s.tasks ∧
      (r = { t with status := .failed, error_message := some allUnavailMsg } ∨
       ∃ b u, b ∉ exclude ∧ A b t = .ok u ∧
         r = { u with backend_used := some b }) := by
  intro fuel
  induction fuel with
  | zero =>
    intro A s t exclude s' r h
    simp [failover_generate] at h
  | succ n ih =>
    intro A s t exclude s' r h
    rw [failover_generate] at h
    split at h
    · injection h with h1 h2
      subst h1
      subst h2
      exact ⟨rfl, rfl, rfl, rfl, Or.inl rfl⟩
    · next name rest' hfil =>
      split at h
      · next u hA =>
        injection h with h1 h2
        subst h1
        rw [decTasks_incTasks]
        have hname : name ∉ exclude := by
          have hm : name ∈ (get_available_backends s).filter
              (fun b => decide (b ∉ exclude)) :=
            hfil ▸ List.mem_cons_self _ _
          exact of_decide_eq_true (List.mem_filter.mp hm).2
        exact ⟨rfl, rfl, rfl, rfl, Or.inr ⟨name, u, hname, hA, h2.symm⟩⟩
      · next e hA =>
        split at h
        · next s2 r2 hrec =>
          injection h with h1 h2
          subst h1
          subst h2
          obtain ⟨c1, c2, c3, c4, c5⟩ :=
            ih A (incTasks s name) t (exclude ++ [name]) s2 r2 hrec
          refine ⟨c1, c2, c3, ?_, ?_⟩
          · show amod (fun c => c - 1) s2.tasks name = s.tasks
            have h4 : s2.tasks = amod (fun c => c + 1) s.tasks name := c4
            rw [h4, amod_cancel (fun c => c + 1) (fun c => c - 1) (fun v => Nat.add_sub_cancel v 1)]
          · rcases c5 with h5 | ⟨b, u, hb, hA', hr⟩
            · exact Or.inl h5
            · exact Or.inr ⟨b, u,
                fun hmem => hb (List.mem_append_left _ hmem), hA', hr⟩
        · next hne =>
          exact (hne _ _ h).elim

/-- Filtering with a stronger predicate yields a shorter list. -/
theorem length_filter_mono {l : List String} {p q : String → Bool}
    (h : ∀ x, q x = true → p x = true) :
    (l.filter q).length ≤ (l.filter p).length := by
  induction l with
  | nil => simp
  | cons x xs ih =>
    rw [List.filter_cons, List.filter_cons]
    by_cases hq : q x = true
    · rw [if_pos hq, if_pos (h x hq)]
      simpa using Nat.succ_le_succ ih
    · rw [if_neg hq]
      by_cases hp : p x = true
      · rw [if_pos hp]
        exact ih.trans (Nat.le_succ _)
      · rw [if_neg hp]
        exact ih

/-- Excluding one more backend that is configured and not yet excluded
strictly shrinks the termination measure. -/
theorem numRemaining_append_lt {names exclude : List String} {a : String}
    (ha : a ∈ names) (hae : a ∉ exclude) :
    numRemaining names (exclude ++ [a]) < numRemaining names exclude := by
  unfold numRemaining
  have himp : ∀ x, decide (x ∉ exclude ++ [a]) = true →
      decide (x ∉ exclude) = true := by
    intro x hx
    have hx' := of_decide_eq_true hx
    exact decide_eq_true (fun hmem => hx' (List.mem_append_left _ hmem))
  induction names with
  | nil => cases ha
  | cons x xs ih =>
    rw [List.filter_cons, List.filter_cons]
    by_cases hx : x = a
    · subst hx
      have h1 : decide (x ∉ exclude ++ [x]) = false := by simp
      have h2 : decide (x ∉ exclude) = true := by simpa using hae
      rw [h1, h2, if_neg Bool.false_ne_true, if_pos rfl, List.length_cons]
      exact Nat.lt_succ_of_le (@length_filter_mono xs _ _ himp)
    · have ha' : a ∈ xs := by
        rcases List.mem_cons.mp ha with h | h
        · exact absurd h.symm hx
        · exact h
      by_cases hxe : x ∈ exclude
      · have h1 : decide (x ∉ exclude ++ [a]) = false := by
          simp [List.mem_append, hxe]
        have h2 : decide (x ∉ exclude) = false := by simp [hxe]
        rw [h1, h2, if_neg Bool.false_ne_true, if_neg Bool.false_ne_true]
        exact ih ha'
      · have h1 : decide (x ∉ exclude ++ [a]) = true := by
          simp [List.mem_append, hxe, hx]
        have h2 : decide (x ∉ exclude) = true := by simpa using hxe
        rw [h1, h2, if_pos rfl, if_pos rfl, List.length_cons, List.length_cons]
        exact Nat.succ_lt_succ (ih ha')

/-- With fuel exceeding the number of configured-and-not-yet-excluded
backends, the failover recursion always returns normally. -/
theorem failover_term :
    ∀ (fuel : Nat) (A : AdapterOracle) (s : GenState)
      (t : VideoGenerationTask) (exclude : List String),
      numRemaining (s.configs.map Prod.fst) exclude < fuel →
      ∃ s' r, failover_generate A s t exclude fuel = .ok s' r := by
  intro fuel
  induction fuel with
  | zero =>
    intro A s t exclude h
    exact absurd h (Nat.not_lt_zero _)
  | succ n ih =>
    intro A s t exclude h
    rw [failover_generate]
    cases hfil : (get_available_backends s).filter
        (fun b => decide (b ∉ exclude)) with
    | nil =>
      exact ⟨_, _, rfl⟩
    | cons name rest' =>
      have hm : name ∈ (get_available_backends s).filter
          (fun b => decide (b ∉ exclude)) :=
        hfil ▸ List.mem_cons_self _ _
      obtain ⟨hav, hnx⟩ := List.mem_filter.mp hm
      have hnx' : name ∉ exclude := of_decide_eq_true hnx
      cases hA : A name t with
      | ok u =>
        exact ⟨decTasks (incTasks s name) name,
          { u with backend_used := some name }, by simp only [hA]⟩
      | error e =>
        have hmem : name ∈ s.configs.map Prod.fst := by
          obtain ⟨cfg, hcfg, _⟩ := mem_available.mp hav
          exact List.mem_map.mpr ⟨(name, cfg), hcfg, rfl⟩
        have hlt : numRemaining ((incTasks s name).configs.map Prod.fst)
            (exclude ++ [name]) < n := by
          have hconf : (incTasks s name).configs = s.configs := rfl
          rw [hconf]
          have hstrict := numRemaining_append_lt hmem hnx'
          omega
        obtain ⟨s2, r2, hrec⟩ := ih A (incTasks s name) t (exclude ++ [name]) hlt
        exact ⟨decTasks s2 name, r2, by simp only [hA, hrec]⟩

/-- Any normal return of the dispatcher leaves the configuration, the
registry and — because every reservation is released — the task counts
exactly as they were. -/
theorem generate_video_state_spec {A : AdapterOracle} {s : GenState}
    {t : VideoGenerationTask} {fuel : Nat} {s' : GenState}
    {r : VideoGenerationTask} (h : generate_video A s t fuel = .ok s' r) :
    s'.configs = s.configs ∧ s'.backends = s.backends ∧ s'.tasks = s.tasks := by
  unfold generate_video at h
  split at h
  · exact absurd h (by simp)
  · injection h with h1 h2
    subst h1
    exact ⟨rfl, rfl, rfl⟩
  · next name t1 hsel =>
    split at h
    · next u hA =>
      injection h with h1 h2
      subst h1
      rw [decTasks_incTasks]
      exact ⟨rfl, rfl, rfl⟩
    · next e hA =>
      split at h
      · next s2 r2 hrec =>
        injection h with h1 h2
        subst h1
        obtain ⟨c1, c2, c3, c4, c5⟩ := failover_spec _ _ _ _ _ _ _ hrec
        refine ⟨c1, c2, ?_⟩
        show amod (fun c => c - 1) s2.tasks name = s.tasks
        have h4 : s2.tasks = amod (fun c => c + 1) s.tasks name := c4
        rw [h4, amod_cancel (fun c => c + 1) (fun c => c - 1)
          (fun v => Nat.add_sub_cancel v 1)]
      · next hne =>
        exact (hne _ _ h).elim

/-- With no available backend the dispatcher fails the task with the
no-backend message without touching state or any adapter (`A` is
arbitrary). -/
theorem generate_video_no_backend {A : AdapterOracle} {s : GenState}
    {t : VideoGenerationTask} {fuel : Nat}
    (h : ∀ p ∈ s.configs,
      p.2.enabled = false ∨ alookupD s.health p.1 false = false) :
    generate_video A s t fuel =
      .ok s { t with status := .failed, error_message := some noBackendMsg } := by
  have hav : get_available_backends s = [] := available_eq_nil h
  unfold generate_video select_best_backend
  rw [hav]
  rfl

/-! ## Fps substitution: Python `min` returns the first minimiser -/

/-- The fold underlying `closestFps` attains the minimal distance over
start element and list. -/
theorem closestFold_min (fps x : Int) (xs : List Int) :
    distTo fps (xs.foldl
      (fun best y =>
        if (y - fps).natAbs < (best - fps).natAbs then y else best) x) ≤
      distTo fps x ∧
    ∀ w ∈ xs, distTo fps (xs.foldl
      (fun best y =>
        if (y - fps).natAbs < (best - fps).natAbs then y else best) x) ≤
      distTo fps w := by
  induction xs generalizing x with
  | nil => exact ⟨Nat.le_refl _, fun w hw => absurd hw (List.not_mem_nil w)⟩
  | cons y ys ih =>
    simp only [List.foldl_cons]
    obtain ⟨h1, h2⟩ := ih (if (y - fps).natAbs < (x - fps).natAbs then y else x)
    have hstep_le_x : distTo fps
        (if (y - fps).natAbs < (x - fps).natAbs then y else x) ≤
        distTo fps x := by
      by_cases hp : (y - fps).natAbs < (x - fps).natAbs
      · rw [if_pos hp]
        exact Nat.le_of_lt hp
      · rw [if_neg hp]
    have hstep_le_y : distTo fps
        (if (y - fps).natAbs < (x - fps).natAbs then y else x) ≤
        distTo fps y := by
      by_cases hp : (y - fps).natAbs < (x - fps).natAbs
      · rw [if_pos hp]
      · rw [if_neg hp]
        exact Nat.le_of_not_lt hp
    refine ⟨h1.trans hstep_le_x, ?_⟩
    intro w hw
    rcases List.mem_cons.mp hw with rfl | hw'
    · exact h1.trans hstep_le_y
    · exact h2 w hw'

/-- A start element already minimal is never replaced: Python's `min`
keeps the current best on ties. -/
theorem closestFold_stays (fps x : Int) (xs : List Int)
    (h : ∀ w ∈ xs, distTo fps x ≤ distTo fps w) :
    xs.foldl
      (fun best y =>
        if (y - fps).natAbs < (best - fps).natAbs then y else best) x = x := by
  induction xs with
  | nil => rfl
  | cons y ys ih =>
    simp only [List.foldl_cons]
    have hy : distTo fps x ≤ distTo fps y := h y (List.mem_cons_self y ys)
    rw [if_neg (show ¬ (y - fps).natAbs < (x - fps).natAbs from
      Nat.not_lt.mpr hy)]
    exact ih (fun w hw => h w (List.mem_cons_of_mem _ hw))

/-- `find?` only looks at the predicate on list elements. -/
theorem find?_congr_mem {α : Type} {l : List α} {p q : α → Bool}
    (h : ∀ a ∈ l, p a = q a) : l.find? p = l.find? q := by
  induction l with
  | nil => rfl
  | cons x xs ih =>
    have hx := h x (List.mem_cons_self x xs)
    cases hp : p x with
    | true =>
      rw [List.find?_cons_of_pos _ hp, List.find?_cons_of_pos _ (hx ▸ hp)]
    | false =>
      rw [List.find?_cons_of_neg _ (by simp [hp]),
        List.find?_cons_of_neg _ (by simp [hx ▸ hp])]
      exact ih (fun a ha => h a (List.mem_cons_of_mem _ ha))

/-- The fold of Python's `min` computes exactly the first element of the
list attaining the minimal distance. -/
theorem closestFold_first_min (fps : Int) :
    ∀ (xs : List Int) (x : Int),
      (x :: xs).find?
        (fun v => decide (∀ w ∈ x :: xs, distTo fps v ≤ distTo fps w)) =
      some (xs.foldl
        (fun best y =>
          if (y - fps).natAbs < (best - fps).natAbs then y else best) x) := by
  intro xs
  induction xs with
  | nil =>
    intro x
    have hall : ∀ w ∈ [x], distTo fps x ≤ distTo fps w := by
      intro w hw
      rcases List.mem_cons.mp hw with rfl | hw'
      · exact Nat.le_refl _
      · exact absurd hw' (List.not_mem_nil w)
    rw [List.find?_cons, decide_eq_true hall]
    rfl
  | cons y ys ih =>
    intro x
    simp only [List.foldl_cons]
    by_cases hyx : distTo fps y < distTo fps x
    · have hstep : (if (y - fps).natAbs < (x - fps).natAbs then y else x) = y :=
        if_pos hyx
      rw [hstep]
      obtain ⟨hm1, hm2⟩ := closestFold_min fps y ys
      have hfoldmem := closestFold_mem fps y ys
      have hpx : ¬ ∀ w ∈ x :: y :: ys, distTo fps x ≤ distTo fps w := by
        intro hall
        have ha := hall _ (List.mem_cons_of_mem _ hfoldmem)
        have hb : distTo fps (ys.foldl
            (fun best y =>
              if (y - fps).natAbs < (best - fps).natAbs then y else best) y) <
            distTo fps x := Nat.lt_of_le_of_lt hm1 hyx
        omega
      rw [List.find?_cons, decide_eq_false hpx]
      have hcg : ∀ a ∈ y :: ys,
          (decide (∀ w ∈ x :: y :: ys, distTo fps a ≤ distTo fps w)) =
          (decide (∀ w ∈ y :: ys, distTo fps a ≤ distTo fps w)) := by
        intro a ha
        by_cases hPa : ∀ w ∈ y :: ys, distTo fps a ≤ distTo fps w
        · have hax : distTo fps a ≤ distTo fps x :=
            Nat.le_of_lt (Nat.lt_of_le_of_lt (hPa y (List.mem_cons_self y ys)) hyx)
          have hPb : ∀ w ∈ x :: y :: ys, distTo fps a ≤ distTo fps w := by
            intro w hw
            rcases List.mem_cons.mp hw with rfl | hw'
            · exact hax
            · exact hPa w hw'
          rw [decide_eq_true hPb, decide_eq_true hPa]
        · have hPb : ¬ ∀ w ∈ x :: y :: ys, distTo fps a ≤ distTo fps w :=
            fun hall => hPa (fun w hw => hall w (List.mem_cons_of_mem _ hw))
          rw [decide_eq_false hPb, decide_eq_false hPa]
      rw [find?_congr_mem hcg]
      exact ih y
    · have hxy : distTo fps x ≤ distTo fps y := Nat.le_of_not_lt hyx
      have hstep : (if (y - fps).natAbs < (x - fps).natAbs then y else x) = x :=
        if_neg hyx
      rw [hstep]
      by_cases hminx : ∀ w ∈ x :: y :: ys, distTo fps x ≤ distTo fps w
      · have hstay := closestFold_stays fps x ys (fun w hw =>
          hminx w (List.mem_cons_of_mem _ (List.mem_cons_of_mem _ hw)))
        rw [List.find?_cons, decide_eq_true hminx, hstay]
      · have hviol : ∃ w ∈ ys, distTo fps w < distTo fps x := by
          by_contra hc
          push_neg at hc
          refine hminx ?_
          intro w hw
          rcases List.mem_cons.mp hw with rfl | hw'
          · exact Nat.le_refl _
          · rcases List.mem_cons.mp hw' with rfl | hw''
            · exact hxy
            · exact hc w hw''
        rw [List.find?_cons, decide_eq_false hminx]
        have hpy : ¬ ∀ w ∈ x :: y :: ys, distTo fps y ≤ distTo fps w := by
          obtain ⟨w, hw, hlt⟩ := hviol
          intro hall
          have := hall w (List.mem_cons_of_mem _ (List.mem_cons_of_mem _ hw))
          omega
        rw [List.find?_cons, decide_eq_false hpy]
        have hx' : ¬ ∀ w ∈ x :: ys, distTo fps x ≤ distTo fps w := by
          obtain ⟨w, hw, hlt⟩ := hviol
          intro hall
          have := hall w (List.mem_cons_of_mem _ hw)
          omega
        have hihx := ih x
        rw [List.find?_cons, decide_eq_false hx'] at hihx
        have hcg : ∀ a ∈ ys,
            (decide (∀ w ∈ x :: y :: ys, distTo fps a ≤ distTo fps w)) =
            (decide (∀ w ∈ x :: ys, distTo fps a ≤ distTo fps w)) := by
          intro a ha
          by_cases hPa : ∀ w ∈ x :: ys, distTo fps a ≤ distTo fps w
          · have hay : distTo fps a ≤ distTo fps y :=
              (hPa x (List.mem_cons_self x ys)).trans hxy
            have hPb : ∀ w ∈ x :: y :: ys, distTo fps a ≤ distTo fps w := by
              intro w hw
              rcases List.mem_cons.mp hw with rfl | hw'
              · exact hPa _ (List.mem_cons_self _ _)
              · rcases List.mem_cons.mp hw' with rfl | hw''
                · exact hay
                · exact hPa w (List.mem_cons_of_mem _ hw'')
            rw [decide_eq_true hPb, decide_eq_true hPa]
          · have hPb : ¬ ∀ w ∈ x :: y :: ys, distTo fps a ≤ distTo fps w := by
              intro hall
              refine hPa ?_
              intro w hw
              rcases List.mem_cons.mp hw with rfl | hw'
              · exact hall _ (List.mem_cons_self _ _)
              · exact hall w
                  (List.mem_cons_of_mem _ (List.mem_cons_of_mem _ hw'))
            rw [decide_eq_false hPb, decide_eq_false hPa]
        rw [find?_congr_mem hcg]
        exact hihx

/-- The fps substitution equals, for every input, the first value in
supported-list order attaining the minimal distance. -/
theorem closestFps_eq_spec (fps : Int) (l : List Int) :
    closestFps fps l = specClosestFps fps l := by
  cases l with
  | nil => rfl
  | cons x xs =>
    simp only [closestFps, specClosestFps]
    exact (closestFold_first_min fps xs x).symm

/-! ## Further dispatcher helpers -/

/-- Selection that finds no backend makes the dispatcher fail the task
with the no-backend message, for an arbitrary adapter layer. -/
theorem generate_video_select_none {A : AdapterOracle} {s : GenState}
    {t : VideoGenerationTask} {fuel : Nat}
    (h : select_best_backend s t = .ok none) :
    generate_video A s t fuel =
      .ok s { t with status := .failed, error_message := some noBackendMsg } := by
  unfold generate_video
  simp only [h]

/-- A backend whose declared maximum duration is exceeded is skipped by
the capability check (the `continue` at lines 173–174). -/
theorem check_backend_over_duration {caps : BackendCapabilities}
    {t : VideoGenerationTask} (hdur : caps.max_duration < t.duration) :
    check_backend caps t = .ok none := by
  unfold check_backend
  by_cases h1 : (t.input_image.isSome && !caps.supports_image_to_video) = true
  · rw [if_pos h1]
  · rw [if_neg h1, if_pos hdur]

/-- If every registered backend's maximum duration is below the task's
requested duration, the whole selection loop comes back empty-handed. -/
theorem select_loop_none_of_over_duration {s : GenState}
    {t : VideoGenerationTask}
    (h : ∀ n caps, alookup s.backends n = some caps →
      caps.max_duration < t.duration) :
    ∀ l, select_loop s t l = .ok none := by
  intro l
  induction l with
  | nil => rfl
  | cons n rest ih =>
    rw [select_loop]
    cases hb : alookup s.backends n with
    | none => simp only [hb]; exact ih
    | some caps =>
      simp only [hb, check_backend_over_duration (h n caps hb)]
      exact ih

/-! ## Claim theorems -/

/-- Claim C1 (confirmed).  Whenever `select_best_backend` returns a
backend name, the task as adapted in place satisfies that backend's
declared capability bounds: an input image implies image-to-video
support, the duration does not exceed the backend's maximum, the adapted
resolution is among the supported resolutions and the adapted fps is
among the supported fps (under the claim's assumption that the declared
capability lists are non-empty). -/
theorem selector_respects_capabilities {s : GenState}
    {t : VideoGenerationTask} {name : String} {t' : VideoGenerationTask}
    (hne : ∀ n caps, alookup s.backends n = some caps →
      caps.supported_resolutions ≠ [] ∧ caps.supported_fps ≠ [])
    (h : select_best_backend s t = .ok (some (name, t'))) :
    ∃ caps, alookup s.backends name = some caps ∧
      (t'.input_image.isSome = true → caps.supports_image_to_video = true) ∧
      t'.duration ≤ caps.max_duration ∧
      t'.resolution ∈ caps.supported_resolutions ∧
      t'.fps ∈ caps.supported_fps := by
  have h' : select_loop s t (get_available_backends s) =
      .ok (some (name, t')) := h
  obtain ⟨caps, hb, _, _, _, _, _, g7, g8, g9, g10⟩ := select_loop_spec h'
  exact ⟨caps, hb, g7, g8, g9, g10⟩

/-- Lookup in a one-entry association list pins down the value. -/
theorem alookup_singleton {α : Type} {k n : String} {v caps : α}
    (h : alookup [(k, v)] n = some caps) : caps = v := by
  by_cases hk : k = n
  · simp [alookup, hk] at h
    exact h.symm
  · simp [alookup, hk] at h

/-- Witness for C1: a backend supporting only 1024x576@24fps is selected
for a 1920x1080@30fps task, whose resolution and fps are adapted into the
declared lists. -/
theorem selector_respects_capabilities_witness :
    select_best_backend stA taskA =
      .ok (some ("a", { taskA with resolution := "1024x576", fps := 24 })) ∧
    ∃ caps, alookup stA.backends "a" = some caps ∧
      (({ taskA with resolution := "1024x576", fps := 24 } :
          VideoGenerationTask).input_image.isSome = true →
        caps.supports_image_to_video = true) ∧
      ({ taskA with resolution := "1024x576", fps := 24 } :
          VideoGenerationTask).duration ≤ caps.max_duration ∧
      ({ taskA with resolution := "1024x576", fps := 24 } :
          VideoGenerationTask).resolution ∈ caps.supported_resolutions ∧
      ({ taskA with resolution := "1024x576", fps := 24 } :
          VideoGenerationTask).fps ∈ caps.supported_fps := by
  have hsel : select_best_backend stA taskA =
      .ok (some ("a", { taskA with resolution := "1024x576", fps := 24 })) := rfl
  exact ⟨hsel, selector_respects_capabilities
    (fun n caps h => by
      have hc := alookup_singleton h
      subst hc
      exact ⟨by decide, by decide⟩) hsel⟩

/-- Claim C3 (corrected), counterexample.  A task of duration 10 against
the lone backend with `max_duration = 4` is not dispatched with its
duration clamped to 4: selection skips the backend, `generate_video`
fails the task with the no-backend message (duration still 10, no
backend used), and `validate_task` raises rather than clamps. -/
theorem over_duration_skipped_cex :
    select_best_backend stD4 taskDur10 = .ok none ∧
    generate_video okAdapter stD4 taskDur10 1 =
      .ok stD4 { taskDur10 with status := .failed, error_message := some noBackendMsg } ∧
    validate_task capsD4 taskDur10 = .error "时长超过限制: 10s > 4s" :=
  ⟨rfl, rfl, rfl⟩

/-- Claim C3 (corrected), amended.  A task whose duration exceeds every
registered backend's declared maximum is not dispatched at all: selection
returns no backend, the dispatcher fails the task with the no-backend
message (duration unchanged), and `validate_task` raises a duration
error for such a task instead of clamping. -/
theorem over_duration_backend_skipped :
    (∀ (s : GenState) (t : VideoGenerationTask),
      (∀ n caps, alookup s.backends n = some caps →
        caps.max_duration < t.duration) →
      select_best_backend s t = .ok none) ∧
    (∀ (A : AdapterOracle) (s : GenState) (t : VideoGenerationTask)
        (fuel : Nat),
      (∀ n caps, alookup s.backends n = some caps →
        caps.max_duration < t.duration) →
      generate_video A s t fuel =
        .ok s { t with status := .failed, error_message := some noBackendMsg }) ∧
    (∀ (caps : BackendCapabilities) (t : VideoGenerationTask),
      t.resolution ∈ caps.supported_resolutions →
      t.fps ∈ caps.supported_fps →
      caps.max_duration < t.duration →
      validate_task caps t = .error ("时长超过限制: " ++ toString t.duration ++
        "s > " ++ toString caps.max_duration ++ "s")) := by
  refine ⟨?_, ?_, ?_⟩
  · intro s t h
    exact select_loop_none_of_over_duration h _
  · intro A s t fuel h
    exact generate_video_select_none (select_loop_none_of_over_duration h _)
  · intro caps t hres hfps hdur
    unfold validate_task
    rw [if_neg (by simpa using hres), if_neg (by simpa using hfps),
      if_pos hdur]

/-- Witness for the amended C3 at the concrete Scenario-D instance. -/
theorem over_duration_backend_skipped_witness :
    select_best_backend stD4 taskDur10 = .ok none ∧
    generate_video okAdapter stD4 taskDur10 3 =
      .ok stD4 { taskDur10 with status := .failed, error_message := some noBackendMsg } ∧
    validate_task capsD4 taskDur10 = .error "时长超过限制: 10s > 4s" :=
  ⟨over_duration_backend_skipped.1 stD4 taskDur10
      (fun n caps h => by
        have hc := alookup_singleton h
        subst hc
        decide),
   over_duration_backend_skipped.2.1 okAdapter stD4 taskDur10 3
      (fun n caps h => by
        have hc := alookup_singleton h
        subst hc
        decide),
   over_duration_backend_skipped.2.2 capsD4 taskDur10 (by decide) (by decide)
     (by decide)⟩

/-- Claim C9 (corrected), counterexample.  With every backend disabled the
task fails with the Chinese message `"没有可用的后端"`, which does not
contain the English substring "no backend available" the claim requires. -/
theorem no_backend_message_cex :
    generate_video okAdapter stDisabled taskPQ 1 =
      .ok stDisabled { taskPQ with status := .failed, error_message := some noBackendMsg } ∧
    hasSubChars ("no backend available".data) noBackendMsg.data = false :=
  ⟨rfl, by decide⟩

/-- Claim C9 (corrected), amended.  If every registered backend is
disabled or unhealthy, `generate_video` returns the task with status
Failed and error message `"没有可用的后端"` (the code's Chinese rendering
of "no backend available"), without invoking any adapter — the result is
the same for every adapter layer `A`. -/
theorem all_backends_unavailable_failure
    (A : AdapterOracle) (s : GenState) (t : VideoGenerationTask) (fuel : Nat)
    (h : ∀ p ∈ s.configs,
      p.2.enabled = false ∨ alookupD s.health p.1 false = false) :
    generate_video A s t fuel =
      .ok s { t with status := .failed, error_message := some noBackendMsg } :=
  generate_video_no_backend h

/-- Witness for the amended C9. -/
theorem all_backends_unavailable_failure_witness :
    generate_video failAllAdapter stDisabled taskPQ 2 =
      .ok stDisabled { taskPQ with status := .failed, error_message := some noBackendMsg } :=
  all_backends_unavailable_failure failAllAdapter stDisabled taskPQ 2
    (by decide)

/-- Claim C2 (confirmed).  When the selected backend's adapter raises
during dispatch, the returned dispatch has: that backend marked
unhealthy, its quota reservation released (all counts as before), and the
task retried on another backend — any backend name stamped into
`backend_used` differs from the failed backend, was not in the exclusion
chain, and is exactly the backend whose adapter call succeeded and
produced the returned task. -/
theorem dispatcher_failover_on_adapter_error {A : AdapterOracle}
    {s : GenState} {t t1 : VideoGenerationTask} {name e : String}
    {fuel : Nat} {s' : GenState} {r : VideoGenerationTask}
    (hbu : t.backend_used = none)
    (hsel : select_best_backend s t = .ok (some (name, t1)))
    (hA : A name t1 = .error e)
    (h : generate_video A s t fuel = .ok s' r) :
    alookupD s'.health name false = false ∧
    s'.tasks = s.tasks ∧
    ∀ b, r.backend_used = some b → b ≠ name ∧
      ∃ u, A b t1 = .ok u ∧ r = { u with backend_used := some b } := by
  unfold generate_video at h
  simp only [hsel] at h
  simp only [hA] at h
  split at h
  · next s2 r2 hrec =>
    injection h with h1 h2
    subst h1
    subst h2
    obtain ⟨c1, c2, c3, c4, c5⟩ := failover_spec _ _ _ _ _ _ _ hrec
    refine ⟨?_, ?_, ?_⟩
    · show alookupD s2.health name false = false
      have h3 : s2.health = aset s.health name false := c3
      unfold alookupD
      rw [h3, alookup_aset_self]
      rfl
    · show amod (fun c => c - 1) s2.tasks name = s.tasks
      have h4 : s2.tasks = amod (fun c => c + 1) s.tasks name := c4
      rw [h4, amod_cancel (fun c => c + 1) (fun c => c - 1)
        (fun v => Nat.add_sub_cancel v 1)]
    · intro b hb
      rcases c5 with h5 | ⟨b', u, hb', hA', hr⟩
      · exfalso
        have hsel' : select_loop s t (get_available_backends s) =
            .ok (some (name, t1)) := hsel
        obtain ⟨caps, _, _, _, _, hbu1, _, _, _, _, _⟩ := select_loop_spec hsel'
        rw [h5] at hb
        simp only at hb
        rw [hbu1, hbu] at hb
        cases hb
      · have hbb : b' = b := by
          rw [hr] at hb
          simp only at hb
          injection hb
        subst hbb
        refine ⟨?_, u, hA', hr⟩
        intro hbn
        exact hb' (hbn ▸ List.mem_cons_self _ _)
  · next hne =>
    exact (hne _ _ h).elim

/-- Witness for C2: primary backend `"p"` raises, the dispatcher fails
over to `"q"`, marks `"p"` unhealthy, releases all reservations and
returns the task with `backend_used = "q"`. -/
theorem dispatcher_failover_on_adapter_error_witness :
    ∃ s' r, generate_video failPAdapter stPQ taskPQ 2 = .ok s' r ∧
      alookupD s'.health "p" false = false ∧ s'.tasks = stPQ.tasks ∧
      r.backend_used = some "q" ∧ "q" ≠ "p" ∧
      ∃ u, failPAdapter "q" taskPQ = .ok u ∧
        r = { u with backend_used := some "q" } := by
  have heq : generate_video failPAdapter stPQ taskPQ 2 =
      .ok { configs := [("p", cfgP), ("q", cfgQ)],
            backends := [("p", capsPQ), ("q", capsPQ)],
            health := [("p", false), ("q", true)],
            tasks := [("p", 0), ("q", 0)] }
        { taskPQ with status := .completed, backend_used := some "q" } := rfl
  have h := dispatcher_failover_on_adapter_error
    (show taskPQ.backend_used = none from rfl)
    (show select_best_backend stPQ taskPQ = .ok (some ("p", taskPQ)) from rfl)
    (show failPAdapter "p" taskPQ = .error "connection reset" from rfl)
    heq
  refine ⟨_, _, heq, h.1, h.2.1, rfl, ?_, ?_⟩
  · exact (h.2.2 "q" rfl).1
  · exact (h.2.2 "q" rfl).2

/-- Claim C4 (confirmed).  First part: every normal dispatch returns the
counts to their initial values (the reservation is released on every exit
path), so any state satisfying the `[0, max_concurrent_tasks]` bounds
still satisfies them afterwards — indeed the counts are unchanged.
Second part: a reservation made on a backend reported available (count
strictly below its bound, checked during selection) keeps every
configured backend's count within its bound. -/
theorem dispatcher_quota_invariant :
    (∀ (A : AdapterOracle) (s : GenState) (t : VideoGenerationTask)
        (fuel : Nat) (s' : GenState) (r : VideoGenerationTask),
      generate_video A s t fuel = .ok s' r →
      s'.tasks = s.tasks ∧ (countsOK s → countsOK s')) ∧
    (∀ (s : GenState) (name : String),
      (s.configs.map Prod.fst).Nodup →
      name ∈ get_available_backends s →
      countsOK s → countsOK (incTasks s name)) := by
  constructor
  · intro A s t fuel s' r h
    obtain ⟨c1, c2, c3⟩ := generate_video_state_spec h
    refine ⟨c3, ?_⟩
    intro hok
    intro p hp
    rw [c1] at hp
    unfold alookupD
    rw [c3]
    exact hok p hp
  · intro s name hnd hav hok
    intro p hp
    obtain ⟨cfg', hcfg', hen, hreg, hhl, hlt⟩ := mem_available.mp hav
    show alookupD (amod (fun c => c + 1) s.tasks name) p.1 0 ≤
      p.2.max_concurrent_tasks
    by_cases hpn : p.1 = name
    · have hp' : (name, p.2) ∈ s.configs := by
        rw [← hpn]
        simpa using hp
      have h1 : alookup s.configs name = some p.2 :=
        alookup_eq_of_mem_nodup hnd hp'
      have h2 : alookup s.configs name = some cfg' :=
        alookup_eq_of_mem_nodup hnd hcfg'
      have hcfg_eq : p.2 = cfg' := by
        rw [h1] at h2
        injection h2
      unfold alookupD
      rw [hpn, alookup_amod_self]
      cases hlk : alookup s.tasks name with
      | none => simp
      | some c =>
        have hc : c < cfg'.max_concurrent_tasks := by
          unfold alookupD at hlt
          rw [hlk] at hlt
          simpa using hlt
        rw [hcfg_eq]
        simpa using hc
    · unfold alookupD
      rw [alookup_amod_ne _ _ hpn]
      exact hok p hp

/-- Witness for C4 at a concrete dispatch (one backend raising, one
succeeding) and a concrete reservation. -/
theorem dispatcher_quota_invariant_witness :
    ({ configs := [("p", cfgP), ("q", cfgQ)],
       backends := [("p", capsPQ), ("q", capsPQ)],
       health := [("p", false), ("q", true)],
       tasks := [("p", 0), ("q", 0)] } : GenState).tasks = stPQ.tasks ∧
    (countsOK stPQ →
      countsOK { configs := [("p", cfgP), ("q", cfgQ)],
                 backends := [("p", capsPQ), ("q", capsPQ)],
                 health := [("p", false), ("q", true)],
                 tasks := [("p", 0), ("q", 0)] }) ∧
    countsOK (incTasks stPQ "p") := by
  have h1 := dispatcher_quota_invariant.1 failPAdapter stPQ taskPQ 2
    { configs := [("p", cfgP), ("q", cfgQ)],
      backends := [("p", capsPQ), ("q", capsPQ)],
      health := [("p", false), ("q", true)],
      tasks := [("p", 0), ("q", 0)] }
    { taskPQ with status := .completed, backend_used := some "q" } rfl
  have h2 := dispatcher_quota_invariant.2 stPQ "p" (by decide) (by decide)
    (by unfold countsOK; decide)
  exact ⟨h1.1, h1.2, h2⟩

/-- Claim C5 (confirmed).  First part: whenever a failover step picks a
backend (head of the available list filtered by the exclusion set), that
backend is not yet excluded and appending it strictly shrinks the count
of configured, not-yet-excluded backends — the exclusion set grows
strictly monotonically and bounds the recursion depth.  Second part: with
fuel exceeding the number of configured backends the recursion returns
normally, ending either with the all-backends-unavailable failure or with
the result of a successful adapter call on a previously untried backend. -/
theorem failover_terminates :
    (∀ (s : GenState) (exclude : List String) (name : String)
        (rest : List String),
      (get_available_backends s).filter (fun b => decide (b ∉ exclude)) =
        name :: rest →
      name ∉ exclude ∧
        numRemaining (s.configs.map Prod.fst) (exclude ++ [name]) <
          numRemaining (s.configs.map Prod.fst) exclude) ∧
    (∀ (A : AdapterOracle) (s : GenState) (t : VideoGenerationTask)
        (exclude : List String) (fuel : Nat),
      s.configs.length < fuel →
      ∃ s' r, failover_generate A s t exclude fuel = .ok s' r ∧
        ((r.status = .failed ∧ r.error_message = some allUnavailMsg) ∨
         ∃ b u, b ∉ exclude ∧ A b t = .ok u ∧
           r = { u with backend_used := some b })) := by
  constructor
  · intro s exclude name rest hfil
    have hm : name ∈ (get_available_backends s).filter
        (fun b => decide (b ∉ exclude)) :=
      hfil ▸ List.mem_cons_self _ _
    obtain ⟨hav, hnx⟩ := List.mem_filter.mp hm
    have hnx' : name ∉ exclude := of_decide_eq_true hnx
    refine ⟨hnx', ?_⟩
    have hmem : name ∈ s.configs.map Prod.fst := by
      obtain ⟨cfg, hcfg, _⟩ := mem_available.mp hav
      exact List.mem_map.mpr ⟨(name, cfg), hcfg, rfl⟩
    exact numRemaining_append_lt hmem hnx'
  · intro A s t exclude fuel hf
    have hb : numRemaining (s.configs.map Prod.fst) exclude < fuel := by
      have h1 : numRemaining (s.configs.map Prod.fst) exclude ≤
          s.configs.length := by
        unfold numRemaining
        calc ((s.configs.map Prod.fst).filter
              (fun n => decide (n ∉ exclude))).length
            ≤ (s.configs.map Prod.fst).length := List.length_filter_le _ _
          _ = s.configs.length := List.length_map _ _
      omega
    obtain ⟨s', r, heq⟩ := failover_term fuel A s t exclude hb
    obtain ⟨_, _, _, _, c5⟩ := failover_spec _ _ _ _ _ _ _ heq
    refine ⟨s', r, heq, ?_⟩
    rcases c5 with h5 | ⟨b, u, hbx, hA, hr⟩
    · left
      rw [h5]
      exact ⟨rfl, rfl⟩
    · exact Or.inr ⟨b, u, hbx, hA, hr⟩

/-- Witness for C5 at a concrete state: the first step excludes `"p"`;
with fuel 3 > 2 configured backends the recursion returns normally. -/
theorem failover_terminates_witness :
    ((get_available_backends stPQ).filter (fun b => decide (b ∉ [])) =
      "p" :: ["q"] →
      "p" ∉ ([] : List String) ∧
        numRemaining (stPQ.configs.map Prod.fst) ([] ++ ["p"]) <
          numRemaining (stPQ.configs.map Prod.fst) []) ∧
    ∃ s' r, failover_generate failAllAdapter stPQ taskPQ [] 3 = .ok s' r ∧
      ((r.status = .failed ∧ r.error_message = some allUnavailMsg) ∨
       ∃ b u, b ∉ ([] : List String) ∧ failAllAdapter b taskPQ = .ok u ∧
         r = { u with backend_used := some b }) :=
  ⟨failover_terminates.1 stPQ [] "p" ["q"],
   failover_terminates.2 failAllAdapter stPQ taskPQ [] 3 (by decide)⟩

/-- Claim C6 (confirmed).  The batch result has exactly one entry per
input scene; entry `i` is computed from scene `i`'s outcome regardless of
completion order (`asyncio.gather` returns in argument order), carries
`scene_index = i`, and an exception while generating scene `i` becomes a
failed entry at position `i` rather than aborting the batch. -/
theorem batch_preserves_order_and_converts_errors
    (ids : Nat → String)
    (gen : Nat → VideoGenerationTask → Except String VideoGenerationTask)
    (scenes : List Scene) :
    (generate_videos ids gen scenes).length = scenes.length ∧
    ∀ i sc, scenes.get? i = some sc →
      (generate_videos ids gen scenes).get? i =
        some (mkResultEntry i (gen i (mkTask ids i sc))) ∧
      (mkResultEntry i (gen i (mkTask ids i sc))).sceneIdx = i ∧
      ∀ e, gen i (mkTask ids i sc) = .error e →
        mkResultEntry i (gen i (mkTask ids i sc)) = .exnEntry i e := by
  refine ⟨?_, ?_⟩
  · unfold generate_videos
    simp [List.length_map, List.enum_length]
  · intro i sc hsc
    refine ⟨?_, ?_, ?_⟩
    · unfold generate_videos
      simp only [List.get?_map, List.enum_get?, hsc, Option.map_some']
    · cases hg : gen i (mkTask ids i sc) <;>
        simp [mkResultEntry, ResultEntry.sceneIdx]
    · intro e he
      rw [he]
      rfl

/-- Witness for C6: a one-scene batch whose generation raises still
yields one entry, the failed entry at position 0. -/
theorem batch_preserves_order_and_converts_errors_witness :
    (generate_videos (fun _ => "id") (fun _ _ => .error "boom")
      [({} : Scene)]).length = 1 ∧
    (generate_videos (fun _ => "id") (fun _ _ => .error "boom")
        [({} : Scene)]).get? 0 =
      some (mkResultEntry 0 (.error "boom")) := by
  have h := batch_preserves_order_and_converts_errors (fun _ => "id")
    (fun _ _ => .error "boom") [({} : Scene)]
  exact ⟨h.1, (h.2 0 {} rfl).1⟩

/-- Claim C7 (corrected), counterexample.  "720x1280" is unsupported, no
candidate of its table row is supported either, yet
`_find_compatible_resolution` returns the first supported resolution
instead of reporting the backend incompatible. -/
theorem resolution_fallback_cex :
    ("720x1280" ∉ (["1024x1024"] : List String)) ∧
    (∀ c ∈ resolution_map "720x1280", c ∉ (["1024x1024"] : List String)) ∧
    find_compatible_resolution "720x1280" ["1024x1024"] = some "1024x1024" :=
  ⟨by decide, by decide, rfl⟩

/-- Claim C7 (corrected), amended.  Resolution adaptation substitutes the
first table candidate present in the supported set; when no candidate is
present it falls back to the first supported resolution, so only an empty
supported list makes it report no substitute. -/
theorem resolution_fallback_to_first_supported :
    (∀ (requested : String) (supported : List String) (c : String),
      (resolution_map requested).find? (fun x => decide (x ∈ supported)) =
        some c →
      find_compatible_resolution requested supported = some c) ∧
    (∀ (requested : String) (supported : List String),
      (∀ c ∈ resolution_map requested, c ∉ supported) →
      find_compatible_resolution requested supported = supported.head?) := by
  constructor
  · intro requested supported c h
    unfold find_compatible_resolution
    rw [h]
  · intro requested supported h
    unfold find_compatible_resolution
    have hf : (resolution_map requested).find?
        (fun x => decide (x ∈ supported)) = none := by
      apply List.find?_eq_none.mpr
      intro x hx
      simp [h x hx]
    rw [hf]

/-- Witness for the amended C7: a table hit substitutes the candidate, a
table miss falls back to the head of the supported list. -/
theorem resolution_fallback_to_first_supported_witness :
    find_compatible_resolution "1920x1080" ["1024x576"] = some "1024x576" ∧
    find_compatible_resolution "720x1280" ["1024x1024"] =
      (["1024x1024"] : List String).head? :=
  ⟨resolution_fallback_to_first_supported.1 "1920x1080" ["1024x576"]
      "1024x576" rfl,
   resolution_fallback_to_first_supported.2 "720x1280" ["1024x1024"]
      (by decide)⟩

/-- Claim C8 (corrected), counterexample.  At 27 fps against the
supported list `[30, 24]` the two candidates are equidistant; the claim
requires the lower value 24, but the code substitutes 30 — Python's
`min` keeps the first minimiser in list order, not the lower one. -/
theorem fps_tie_break_cex :
    distTo 27 30 = distTo 27 24 ∧ (24 : Int) < 30 ∧
    closestFps 27 [30, 24] = some 30 ∧
    select_best_backend stFps taskFps27 =
      .ok (some ("f", { taskFps27 with fps := 30 })) :=
  ⟨rfl, by decide, rfl, rfl⟩

/-- Claim C8 (corrected), amended.  The fps substitution picks the first
value in supported-list order attaining the minimal absolute distance to
the requested fps (ties resolve to the earlier list element, which for
the ascending lists the adapters declare is the lower value); and fps
mismatch is never a reason to reject a backend: a backend passing the
image, duration and resolution checks is selected with some supported
fps, whatever its fps list (as long as it is non-empty). -/
theorem fps_substitution_first_min :
    (∀ (fps : Int) (l : List Int), closestFps fps l = specClosestFps fps l) ∧
    (∀ (s : GenState) (t : VideoGenerationTask) (name : String)
        (rest : List String) (caps : BackendCapabilities),
      alookup s.backends name = some caps →
      ¬(t.input_image.isSome = true ∧ caps.supports_image_to_video = false) →
      t.duration ≤ caps.max_duration →
      t.resolution ∈ caps.supported_resolutions →
      caps.supported_fps ≠ [] →
      ∃ f, select_loop s t (name :: rest) =
          .ok (some (name, { t with fps := f })) ∧
        f ∈ caps.supported_fps) := by
  constructor
  · exact closestFps_eq_spec
  · intro s t name rest caps hb himg hdur hres hfps
    have h1 : (t.input_image.isSome && !caps.supports_image_to_video) =
        false := by
      cases hi : t.input_image.isSome
      · simp
      · cases hsv : caps.supports_image_to_video
        · exact absurd ⟨hi, hsv⟩ himg
        · simp [hsv]
    have h2 : ¬ caps.max_duration < t.duration := Nat.not_lt.mpr hdur
    have hres' : adapt_resolution caps t = some t := by
      unfold adapt_resolution
      rw [if_pos hres]
    by_cases hin : t.fps ∈ caps.supported_fps
    · refine ⟨t.fps, ?_, hin⟩
      rw [select_loop]
      have hcb : check_backend caps t = .ok (some t) := by
        unfold check_backend
        rw [if_neg (by simp [h1]), if_neg h2]
        simp only [hres']
        unfold adapt_fps
        rw [if_pos hin]
      simp only [hb, hcb]
    · cases hc : closestFps t.fps caps.supported_fps with
      | none =>
        exfalso
        cases hl : caps.supported_fps with
        | nil => exact hfps hl
        | cons a as =>
          rw [hl] at hc
          simp [closestFps] at hc
      | some f =>
        refine ⟨f, ?_, closestFps_mem hc⟩
        rw [select_loop]
        have hcb : check_backend caps t = .ok (some { t with fps := f }) := by
          unfold check_backend
          rw [if_neg (by simp [h1]), if_neg h2]
          simp only [hres']
          unfold adapt_fps
          rw [if_neg hin]
          simp only [hc]
        simp only [hb, hcb]

/-- Witness for the amended C8 at the tie instance. -/
theorem fps_substitution_first_min_witness :
    ∃ f, select_loop stFps taskFps27 ["f"] =
        .ok (some ("f", { taskFps27 with fps := f })) ∧
      f ∈ capsFps.supported_fps :=
  fps_substitution_first_min.2 stFps taskFps27 "f" [] capsFps rfl
    (by decide) (by decide) (by decide) (by decide)

/-- If every poll outcome is non-terminal (or raises), the wait loop
exhausts its budget and stamps the timeout failure. -/
theorem waitLoop_timeout {poll : Nat → Except String VideoGenerationTask}
    (h : ∀ i u, poll i = .ok u →
      u.status ≠ .completed ∧ u.status ≠ .failed) :
    ∀ (n i : Nat) (t : VideoGenerationTask),
      waitLoop poll t i n =
        { t with status := .failed, error_message := some timeoutMsg } := by
  intro n
  induction n with
  | zero =>
    intro i t
    rfl
  | succ m ih =>
    intro i t
    rw [waitLoop]
    cases hp : poll i with
    | error e => exact ih (i + 1) t
    | ok u =>
      obtain ⟨h1, h2⟩ := h i u hp
      show (if u.status = .completed then u
        else if u.status = .failed then u
        else waitLoop poll t (i + 1) m) = _
      rw [if_neg h1, if_neg h2]
      exact ih (i + 1) t

/-- The `except`-clause wrapper either passes through the body's normal
return or produces a Failed task with an error message set — never an
exception. -/
theorem adapterReturn_spec
    (x : Except (String × VideoGenerationTask) VideoGenerationTask) :
    (∃ u, x = .ok u ∧ adapterReturn x = u) ∨
    ((adapterReturn x).status = .failed ∧
      (adapterReturn x).error_message.isSome = true) := by
  cases x with
  | ok u => exact Or.inl ⟨u, rfl, rfl⟩
  | error p =>
    obtain ⟨e, t'⟩ := p
    exact Or.inr ⟨rfl, rfl⟩

/-- Claim C10 (confirmed).  Every concrete adapter's `generate_video` is
total with respect to exceptions: for all oracles it either returns its
body's normal result or a task with status Failed and an error message
set (conjuncts 1–4); the internal failure modes — missing API key,
validation error, transport exception, non-success HTTP status, poll
timeout — each produce such a Failed task (conjuncts 5–9, shown on the
Runway adapter, whose shape the other three share); and through
always-returning adapters the dispatcher's exception path is unreachable:
health is never flipped, counts are restored, and the result is either
the no-backend failure or the top-selected backend's own result
(conjunct 10). -/
theorem adapters_never_raise :
    (∀ key net rid poll t,
      (∃ u, runwayGenerateBody key net rid poll t = .ok u ∧
        runwayGenerate key net rid poll t = u) ∨
      ((runwayGenerate key net rid poll t).status = .failed ∧
        (runwayGenerate key net rid poll t).error_message.isSome = true)) ∧
    (∀ net rid poll t,
      (∃ u, svdGenerateBody net rid poll t = .ok u ∧
        svdGenerate net rid poll t = u) ∨
      ((svdGenerate net rid poll t).status = .failed ∧
        (svdGenerate net rid poll t).error_message.isSome = true)) ∧
    (∀ key net rid poll t,
      (∃ u, pikaGenerateBody key net rid poll t = .ok u ∧
        pikaGenerate key net rid poll t = u) ∨
      ((pikaGenerate key net rid poll t).status = .failed ∧
        (pikaGenerate key net rid poll t).error_message.isSome = true)) ∧
    (∀ key net rid poll t,
      (∃ u, lumaGenerateBody key net rid poll t = .ok u ∧
        lumaGenerate key net rid poll t = u) ∨
      ((lumaGenerate key net rid poll t).status = .failed ∧
        (lumaGenerate key net rid poll t).error_message.isSome = true)) ∧
    (∀ net rid poll t,
      runwayGenerate none net rid poll t =
        { t with status := .failed, error_message := some runwayKeyMsg }) ∧
    (∀ key net rid poll t e,
      keyConfigured key "your-runway-api-key-here" = true →
      validate_task runwayCapabilities t = .error e →
      runwayGenerate key net rid poll t =
        { t with status := .failed, error_message := some e }) ∧
    (∀ key rid poll t e,
      keyConfigured key "your-runway-api-key-here" = true →
      validate_task runwayCapabilities t = .ok true →
      runwayGenerate key (.raise e) rid poll t =
        { t with status := .failed, error_message := some e }) ∧
    (∀ key rid poll t code body,
      keyConfigured key "your-runway-api-key-here" = true →
      validate_task runwayCapabilities t = .ok true →
      code ≠ 200 →
      runwayGenerate key (.resp code body) rid poll t =
        { t with status := .failed,
                 error_message := some (runwayApiErr code body) }) ∧
    (∀ key rid poll t body,
      keyConfigured key "your-runway-api-key-here" = true →
      validate_task runwayCapabilities t = .ok true →
      (∀ i u, poll i = .ok u →
        u.status ≠ .completed ∧ u.status ≠ .failed) →
      runwayGenerate key (.resp 200 body) rid poll t =
        { t with task_id := rid.getD t.task_id, status := .failed,
                 error_message := some timeoutMsg }) ∧
    (∀ (A : AdapterOracle) (s : GenState) (t : VideoGenerationTask)
        (fuel : Nat) (s' : GenState) (r : VideoGenerationTask),
      (∀ n v, ∃ w, A n v = .ok w) →
      generate_video A s t fuel = .ok s' r →
      s'.health = s.health ∧ s'.tasks = s.tasks ∧
      ((r.status = .failed ∧ r.error_message = some noBackendMsg) ∨
       ∃ name t1 u, select_best_backend s t = .ok (some (name, t1)) ∧
         A name t1 = .ok u ∧ r = { u with backend_used := some name })) := by
  refine ⟨?_, ?_, ?_, ?_, ?_, ?_, ?_, ?_, ?_, ?_⟩
  · intro key net rid poll t
    exact adapterReturn_spec _
  · intro net rid poll t
    exact adapterReturn_spec _
  · intro key net rid poll t
    exact adapterReturn_spec _
  · intro key net rid poll t
    exact adapterReturn_spec _
  · intro net rid poll t
    rfl
  · intro key net rid poll t e hkey hval
    simp [runwayGenerate, runwayGenerateBody, adapterReturn, hkey, hval]
  · intro key rid poll t e hkey hval
    simp [runwayGenerate, runwayGenerateBody, adapterReturn, hkey, hval]
  · intro key rid poll t code body hkey hval hcode
    simp [runwayGenerate, runwayGenerateBody, adapterReturn, hkey, hval, hcode]
  · intro key rid poll t body hkey hval hpoll
    simp only [runwayGenerate, runwayGenerateBody, adapterReturn, hkey,
      hval, Bool.not_true]
    rw [if_neg Bool.false_ne_true, if_pos trivial]
    exact waitLoop_timeout hpoll 60 0 _
  · intro A s t fuel s' r hall h
    unfold generate_video at h
    split at h
    · exact absurd h (by simp)
    · injection h with h1 h2
      subst h1
      subst h2
      exact ⟨rfl, rfl, Or.inl ⟨rfl, rfl⟩⟩
    · next name t1 hsel =>
      obtain ⟨w, hw⟩ := hall name t1
      simp only [hw] at h
      injection h with h1 h2
      subst h1
      subst h2
      refine ⟨rfl, ?_, Or.inr ⟨name, t1, w, hsel, hw, rfl⟩⟩
      show amod (fun c => c - 1) (amod (fun c => c + 1) s.tasks name) name =
        s.tasks
      rw [amod_cancel (fun c => c + 1) (fun c => c - 1)
        (fun v => Nat.add_sub_cancel v 1)]

/-- Witness for C10: a transport error on a configured, validated Runway
call yields a Failed task with the error recorded, and a dispatch through
an always-succeeding adapter leaves health untouched. -/
theorem adapters_never_raise_witness :
    runwayGenerate (some "k") (.raise "net down") none
        (fun _ => .error "poll") taskPQ =
      { taskPQ with status := .failed, error_message := some "net down" } ∧
    (stPQ.health = stPQ.health ∧ stPQ.tasks = stPQ.tasks ∧
      ((({ taskPQ with status := .completed, backend_used := some "p" } :
           VideoGenerationTask).status = .failed ∧
        ({ taskPQ with status := .completed, backend_used := some "p" } :
           VideoGenerationTask).error_message = some noBackendMsg) ∨
       ∃ name t1 u, select_best_backend stPQ taskPQ = .ok (some (name, t1)) ∧
         okAdapter name t1 = .ok u ∧
         ({ taskPQ with status := .completed, backend_used := some "p" } :
             VideoGenerationTask) = { u with backend_used := some name })) :=
  ⟨adapters_never_raise.2.2.2.2.2.2.1 (some "k") none
      (fun _ => .error "poll") taskPQ "net down" rfl rfl,
   adapters_never_raise.2.2.2.2.2.2.2.2.2 okAdapter stPQ taskPQ 1 stPQ
      { taskPQ with status := .completed, backend_used := some "p" }
      (fun n v => ⟨{ v with status := .completed }, rfl⟩) rfl⟩

end NovelToVideo
